import Mathlib

/-!
Verification development for the slack-pixelart conversion engine.

The definitions below are a shallow embedding of the JavaScript source in
`src/pixelart.js` (the core converter) together with the extended distance
metrics of the enhanced converter variant (CIE L*a*b*/CIEDE2000 and Jzazbz).
JavaScript IEEE-754 numbers are modelled as real numbers; 8-bit colour
channels are natural numbers; configuration values that the source only
compares and scales rationally are modelled as rationals.
-/

open scoped Classical

noncomputable section

namespace PixelArt

/-- An 8-bit sRGB colour, `{r, g, b}` with channels in `0..255`. -/
structure Rgb where
  r : ℕ
  g : ℕ
  b : ℕ
deriving DecidableEq, Repr

/-- An 8-bit sRGB colour with alpha, as read from canvas `ImageData`. -/
structure Rgba where
  r : ℕ
  g : ℕ
  b : ℕ
  a : ℕ
deriving DecidableEq, Repr

/-- A linear-RGB triple (each component a real, nominally in `[0,1]`). -/
structure LinRgb where
  r : ℝ
  g : ℝ
  b : ℝ

/-- An OKLab colour `{L, a, b}`. -/
structure Lab where
  L : ℝ
  a : ℝ
  b : ℝ

/-- A CIE XYZ tristimulus triple. -/
structure Xyz where
  x : ℝ
  y : ℝ
  z : ℝ

/-- A Jzazbz colour `{Jz, az, bz}`. -/
structure JzC where
  Jz : ℝ
  az : ℝ
  bz : ℝ

/-- JavaScript `Math.round`: round half away from... in fact JS rounds half up
(`Math.round(x) = ⌊x + 0.5⌋`). -/
def jsRound (x : ℝ) : ℤ := ⌊x + 1 / 2⌋

/-- JavaScript `Math.cbrt`; the engine only applies it to non-negative inputs
but we keep the odd extension for faithfulness. -/
def jsCbrt (x : ℝ) : ℝ :=
  if x < 0 then -((-x) ^ ((1 : ℝ) / 3)) else x ^ ((1 : ℝ) / 3)

/-- JavaScript `Math.atan2 (y, x)`. -/
def jsAtan2 (y x : ℝ) : ℝ :=
  if 0 < x then Real.arctan (y / x)
  else if x < 0 ∧ 0 ≤ y then Real.arctan (y / x) + Real.pi
  else if x < 0 then Real.arctan (y / x) - Real.pi
  else if 0 < y then Real.pi / 2
  else if y < 0 then -(Real.pi / 2)
  else 0

/-- Source `srgb8ToLinear01(c)`: 8-bit sRGB channel to linear, standard
piecewise gamma with breakpoint 0.04045. -/
def srgb8ToLinear01 (c : ℝ) : ℝ :=
  let v := c / 255
  if v ≤ 0.04045 then v / 12.92 else ((v + 0.055) / 1.055) ^ (2.4 : ℝ)

/-- Source `linear01ToSrgb8(v)`: linear channel back to a clamped, rounded
8-bit value (breakpoint 0.0031308). -/
def linear01ToSrgb8 (v : ℝ) : ℤ :=
  let c := if v ≤ 0.0031308 then 12.92 * v else 1.055 * v ^ ((1 : ℝ) / 2.4) - 0.055
  max 0 (min 255 (jsRound (c * 255)))

/-- Source `rgb8ToLinear(rgb)`. -/
def rgb8ToLinear (rgb : Rgb) : LinRgb :=
  { r := srgb8ToLinear01 rgb.r
    g := srgb8ToLinear01 rgb.g
    b := srgb8ToLinear01 rgb.b }

/-- Source `linearToRgb8(lin)`; `linear01ToSrgb8` clamps to `[0, 255]`, so
the `toNat` casts are exact. -/
def linearToRgb8Color (lin : LinRgb) : Rgb :=
  { r := (linear01ToSrgb8 lin.r).toNat
    g := (linear01ToSrgb8 lin.g).toNat
    b := (linear01ToSrgb8 lin.b).toNat }

/-- Source `linearToOklab(lin)`: Björn Ottosson's OKLab conversion from
linear sRGB. -/
def linearToOklab (lin : LinRgb) : Lab :=
  let l := 0.4122214708 * lin.r + 0.5363325363 * lin.g + 0.0514459929 * lin.b
  let m := 0.2119034982 * lin.r + 0.6806995451 * lin.g + 0.1073969566 * lin.b
  let s := 0.0883024619 * lin.r + 0.2817188376 * lin.g + 0.6299787005 * lin.b
  let l₁ := jsCbrt l
  let m₁ := jsCbrt m
  let s₁ := jsCbrt s
  { L := 0.2104542553 * l₁ + 0.7936177850 * m₁ - 0.0040720468 * s₁
    a := 1.9779984951 * l₁ - 2.4285922050 * m₁ + 0.4505937099 * s₁
    b := 0.0259040371 * l₁ + 0.7827717662 * m₁ - 0.8086757660 * s₁ }

/-- Source `clamp01(v)`. -/
def clamp01 (v : ℝ) : ℝ := if v < 0 then 0 else if 1 < v then 1 else v

/-- Source `clampLinear(lin)`. -/
def clampLinear (lin : LinRgb) : LinRgb :=
  { r := clamp01 lin.r, g := clamp01 lin.g, b := clamp01 lin.b }

/-- Source `lerp(a, b, t)`. -/
def lerp (a b t : ℝ) : ℝ := a + (b - a) * t

/-- Source `lanczos3(x)`: the Lanczos3 resampling kernel; returns 1 at the
singular point 0, 0 outside the support `[-3, 3]`, and
`3·sin(πx)·sin(πx/3)/(πx)²` inside. -/
def lanczos3 (x : ℝ) : ℝ :=
  if x = 0 then 1
  else if x < -3 ∨ 3 < x then 0
  else 3 * Real.sin (Real.pi * x) * Real.sin (Real.pi * x / 3) /
    (Real.pi * x * (Real.pi * x))

/-- Normalized sinc, as used in the specification to describe the Lanczos3
kernel: `sinc x = sin(πx)/(πx)` with `sinc 0 = 1`. -/
def sinc (x : ℝ) : ℝ :=
  if x = 0 then 1 else Real.sin (Real.pi * x) / (Real.pi * x)

/-- OKLab chroma `sqrt(a² + b²)`, as computed repeatedly by the metrics. -/
def labChroma (lab : Lab) : ℝ := Real.sqrt (lab.a * lab.a + lab.b * lab.b)

/-- Source `oklabDistance(lab1, lab2, emphasizeLightness)`: weighted OKLab
distance with a chroma-adaptive lightness weight and a hue-difference term. -/
def oklabDistance (lab1 lab2 : Lab) (emphasizeLightness : Bool) : ℝ :=
  let chromaL1 := labChroma lab1
  let chromaL2 := labChroma lab2
  let avgChroma := (chromaL1 + chromaL2) / 2
  let lightnessWeight :=
    if emphasizeLightness then 2.0 else 1.6 + 0.4 * Real.exp (-avgChroma * 3)
  let dL := (lab1.L - lab2.L) * lightnessWeight
  let da := lab1.a - lab2.a
  let db := lab1.b - lab2.b
  let dC := chromaL1 - chromaL2
  let dH2 := da * da + db * db - dC * dC
  Real.sqrt (dL * dL + da * da + db * db + max 0 dH2 * 0.25)

/-- The Helmholtz–Kohlrausch lightness adjustment that
`oklabDistanceCalibrated` applies to each input whose chroma exceeds 0.1. -/
def hkAdjustedL (lab : Lab) : ℝ :=
  let C := labChroma lab
  if 0.1 < C then
    lab.L + 0.015 * C * (0.12 + 0.06 * Real.cos (jsAtan2 lab.b lab.a + 0.8))
  else lab.L

/-- Source `oklabDistanceCalibrated(lab1, lab2)`: LCh-decomposed weighted
distance (wL = wC = 1, wH = 0.5) after the HK lightness adjustment. -/
def oklabDistanceCalibrated (lab1 lab2 : Lab) : ℝ :=
  let C1 := labChroma lab1
  let C2 := labChroma lab2
  let dL := hkAdjustedL lab1 - hkAdjustedL lab2
  let dC := C1 - C2
  let da := lab1.a - lab2.a
  let db := lab1.b - lab2.b
  let dH2 := max 0 (da * da + db * db - dC * dC)
  Real.sqrt (1.0 * (dL * dL) + 1.0 * (dC * dC) + 0.5 * dH2)

/-- Source `linearToXYZ(lin)`. -/
def linearToXYZ (lin : LinRgb) : Xyz :=
  { x := 0.4124564 * lin.r + 0.3575761 * lin.g + 0.1804375 * lin.b
    y := 0.2126729 * lin.r + 0.7151522 * lin.g + 0.0721750 * lin.b
    z := 0.0193339 * lin.r + 0.1191920 * lin.g + 0.9503041 * lin.b }

/-- Source `xyzToLab(xyz)` (D65 white point, ε = 216/24389, κ = 24389/27). -/
def xyzToLab (xyz : Xyz) : Lab :=
  let f : ℝ → ℝ := fun t =>
    if 216 / 24389 < t then jsCbrt t else ((24389 / 27) * t + 16) / 116
  let fx := f (xyz.x / 0.95047)
  let fy := f (xyz.y / 1.00000)
  let fz := f (xyz.z / 1.08883)
  { L := 116 * fy - 16, a := 500 * (fx - fy), b := 200 * (fy - fz) }

/-- Source `linearToCieLab(lin)`. -/
def linearToCieLab (lin : LinRgb) : Lab := xyzToLab (linearToXYZ lin)

/-- CIEDE2000 `G` factor (chroma compression), `25⁷ = 6103515625`. -/
def ciedeG (lab1 lab2 : Lab) : ℝ :=
  let Cmean := (labChroma lab1 + labChroma lab2) / 2
  let Cmean7 := Cmean ^ (7 : ℕ)
  0.5 * (1 - Real.sqrt (Cmean7 / (Cmean7 + 6103515625)))

/-- CIEDE2000 adjusted `a'` of the first argument. -/
def ciedeA1p (lab1 lab2 : Lab) : ℝ := lab1.a * (1 + ciedeG lab1 lab2)

/-- CIEDE2000 adjusted `a'` of the second argument. -/
def ciedeA2p (lab1 lab2 : Lab) : ℝ := lab2.a * (1 + ciedeG lab1 lab2)

/-- CIEDE2000 adjusted chroma `C₁'`. -/
def ciedeC1p (lab1 lab2 : Lab) : ℝ :=
  Real.sqrt (ciedeA1p lab1 lab2 * ciedeA1p lab1 lab2 + lab1.b * lab1.b)

/-- CIEDE2000 adjusted chroma `C₂'`. -/
def ciedeC2p (lab1 lab2 : Lab) : ℝ :=
  Real.sqrt (ciedeA2p lab1 lab2 * ciedeA2p lab1 lab2 + lab2.b * lab2.b)

/-- CIEDE2000 adjusted hue angle `h₁'` in degrees, wrapped to `[0, 360)`. -/
def ciedeH1p (lab1 lab2 : Lab) : ℝ :=
  let h1p := jsAtan2 lab1.b (ciedeA1p lab1 lab2) * 180 / Real.pi
  if h1p < 0 then h1p + 360 else h1p

/-- CIEDE2000 adjusted hue angle `h₂'` in degrees, wrapped to `[0, 360)`. -/
def ciedeH2p (lab1 lab2 : Lab) : ℝ :=
  let h2p := jsAtan2 lab2.b (ciedeA2p lab1 lab2) * 180 / Real.pi
  if h2p < 0 then h2p + 360 else h2p

/-- CIEDE2000 hue difference `Δh'` (case split as in the source). -/
def ciedeDhp (lab1 lab2 : Lab) : ℝ :=
  let h1 := ciedeH1p lab1 lab2
  let h2 := ciedeH2p lab1 lab2
  if ciedeC1p lab1 lab2 * ciedeC2p lab1 lab2 = 0 then 0
  else if |h2 - h1| ≤ 180 then h2 - h1
  else if 180 < h2 - h1 then h2 - h1 - 360
  else h2 - h1 + 360

/-- CIEDE2000 `ΔH'` term. -/
def ciedeDHp (lab1 lab2 : Lab) : ℝ :=
  2 * Real.sqrt (ciedeC1p lab1 lab2 * ciedeC2p lab1 lab2) *
    Real.sin (ciedeDhp lab1 lab2 * Real.pi / 360)

/-- CIEDE2000 mean hue `H̄'` (case split as in the source). -/
def ciedeHpm (lab1 lab2 : Lab) : ℝ :=
  let h1 := ciedeH1p lab1 lab2
  let h2 := ciedeH2p lab1 lab2
  if ciedeC1p lab1 lab2 * ciedeC2p lab1 lab2 = 0 then h1 + h2
  else if |h1 - h2| ≤ 180 then (h1 + h2) / 2
  else if h1 + h2 < 360 then (h1 + h2 + 360) / 2
  else (h1 + h2 - 360) / 2

/-- CIEDE2000 hue weighting factor `T`. -/
def ciedeT (lab1 lab2 : Lab) : ℝ :=
  let Hpm := ciedeHpm lab1 lab2
  1 - 0.17 * Real.cos ((Hpm - 30) * Real.pi / 180)
    + 0.24 * Real.cos (2 * Hpm * Real.pi / 180)
    + 0.32 * Real.cos ((3 * Hpm + 6) * Real.pi / 180)
    - 0.20 * Real.cos ((4 * Hpm - 63) * Real.pi / 180)

/-- CIEDE2000 lightness weighting function `S_L`. -/
def ciedeSL (lab1 lab2 : Lab) : ℝ :=
  let Lpm := (lab1.L + lab2.L) / 2
  let Lpm50sq := (Lpm - 50) * (Lpm - 50)
  1 + 0.015 * Lpm50sq / Real.sqrt (20 + Lpm50sq)

/-- CIEDE2000 chroma weighting function `S_C`. -/
def ciedeSC (lab1 lab2 : Lab) : ℝ :=
  1 + 0.045 * ((ciedeC1p lab1 lab2 + ciedeC2p lab1 lab2) / 2)

/-- CIEDE2000 hue weighting function `S_H`. -/
def ciedeSH (lab1 lab2 : Lab) : ℝ :=
  1 + 0.015 * ((ciedeC1p lab1 lab2 + ciedeC2p lab1 lab2) / 2) * ciedeT lab1 lab2

/-- CIEDE2000 rotation term `R_T`. -/
def ciedeRT (lab1 lab2 : Lab) : ℝ :=
  let Cpm := (ciedeC1p lab1 lab2 + ciedeC2p lab1 lab2) / 2
  let Hpm := ciedeHpm lab1 lab2
  let Cpm7 := Cpm ^ (7 : ℕ)
  (-2) * Real.sqrt (Cpm7 / (Cpm7 + 6103515625)) *
    Real.sin (60 * Real.exp (-((Hpm - 275) / 25) * ((Hpm - 275) / 25)) *
      Real.pi / 180)

/-- Source `ciede2000Distance(lab1, lab2)`: the full CIEDE2000 colour
difference formula, assembled from the helper terms above. -/
def ciede2000Distance (lab1 lab2 : Lab) : ℝ :=
  let dL := (lab2.L - lab1.L) / ciedeSL lab1 lab2
  let dC := (ciedeC2p lab1 lab2 - ciedeC1p lab1 lab2) / ciedeSC lab1 lab2
  let dH := ciedeDHp lab1 lab2 / ciedeSH lab1 lab2
  Real.sqrt (dL * dL + dC * dC + dH * dH + ciedeRT lab1 lab2 * dC * dH)

/-- The PQ-like transfer function used by `linearToJzazbz` (normalized to 203
nits reference white). -/
def jzazbzPq (v : ℝ) : ℝ :=
  let x := |v| / 10000 * 203
  let xn := max 0 x ^ (0.15930176 : ℝ)
  ((0.8359375 + 18.8515625 * xn) / (1 + 18.6875 * xn)) ^ (134.034375 : ℝ)

/-- Source `linearToJzazbz(lin)`. -/
def linearToJzazbz (lin : LinRgb) : JzC :=
  let xyz := linearToXYZ lin
  let Xp := 1.15 * xyz.x - (1.15 - 1) * xyz.z
  let Yp := 0.66 * xyz.y - (0.66 - 1) * xyz.x
  let L := 0.41478972 * Xp + 0.579999 * Yp + 0.0146480 * xyz.z
  let M := -0.20151000 * Xp + 1.120649 * Yp + 0.0531008 * xyz.z
  let S := -0.01660080 * Xp + 0.264800 * Yp + 0.6684799 * xyz.z
  let Lp := jzazbzPq L
  let Mp := jzazbzPq M
  let Sp := jzazbzPq S
  let Iz := 0.5 * (Lp + Mp)
  { Jz := (1 + -0.56) * Iz / (1 + -0.56 * Iz) - 1.6295499532821e-11
    az := 3.524000 * Lp - 4.066708 * Mp + 0.542708 * Sp
    bz := 0.199076 * Lp + 1.096799 * Mp - 1.295875 * Sp }

/-- Source `jzazbzDistance(jz1, jz2)`: Euclidean in az/bz with a
chroma-adaptive lightness weight. -/
def jzazbzDistance (jz1 jz2 : JzC) : ℝ :=
  let chromaJ1 := Real.sqrt (jz1.az * jz1.az + jz1.bz * jz1.bz)
  let chromaJ2 := Real.sqrt (jz2.az * jz2.az + jz2.bz * jz2.bz)
  let avgChroma := (chromaJ1 + chromaJ2) / 2
  let lightnessWeight := 1.6 + 0.4 * Real.exp (-avgChroma * 300)
  let dJ := (jz1.Jz - jz2.Jz) * lightnessWeight
  let da := jz1.az - jz2.az
  let db := jz1.bz - jz2.bz
  Real.sqrt (dJ * dJ + da * da + db * db)

/-- One entry of a palette entry's multi-cluster colour profile
(`colorProfile: [{rgb, weight}]`). -/
structure ProfileEntry where
  rgb : Rgb
  weight : ℚ
deriving DecidableEq, Repr

/-- A palette entry (emoji) as consumed by the converter.  `variance = none`
models a missing `variance` field (set to the 999 sentinel by
`prepareEmojiColors`); `colorError` marks entries whose colour extraction
failed. -/
structure Emoji where
  name : String
  color : Option Rgb
  accentColor : Option Rgb
  colorProfile : List ProfileEntry
  variance : Option ℚ
  colorError : Bool
deriving DecidableEq, Repr

/-- The options object passed to the `PixelArtConverter` constructor: each
field is `none` when the caller omitted it. -/
structure OptionsIn where
  width : Option ℕ
  height : Option ℕ
  charBudget : Option ℚ
  tolerance : Option ℚ
  dithering : Option Bool
  ditheringStrength : Option ℚ
  texturePenalty : Option ℚ
  rasterSamples : Option ℚ
  rasterMaxSourceSide : Option ℚ
  colorMetric : Option String
  adaptiveSampling : Option Bool
  lanczosInterpolation : Option Bool
  adaptiveDithering : Option Bool
  sharpeningStrength : Option ℚ
deriving DecidableEq, Repr

/-- An `OptionsIn` with every field omitted. -/
def emptyOptionsIn : OptionsIn :=
  { width := none, height := none, charBudget := none, tolerance := none
    dithering := none, ditheringStrength := none, texturePenalty := none
    rasterSamples := none, rasterMaxSourceSide := none, colorMetric := none
    adaptiveSampling := none, lanczosInterpolation := none
    adaptiveDithering := none, sharpeningStrength := none }

/-- The effective options of a constructed converter. -/
structure Options where
  width : ℕ
  height : ℕ
  charBudget : ℚ
  tolerance : ℚ
  dithering : Bool
  ditheringStrength : ℚ
  texturePenalty : ℚ
  rasterSamples : ℚ
  rasterMaxSourceSide : ℚ
  colorMetric : String
  adaptiveSampling : Option Bool
  lanczosInterpolation : Option Bool
  adaptiveDithering : Option Bool
  sharpeningStrength : Option ℚ
deriving DecidableEq, Repr

/-- Constructor option merging.  The source computes
`{ width: options.width || 20, ..., ...options }`: the defaulted fields are
re-overwritten by the final object spread, so any field the caller supplied —
including falsy values such as `charBudget: 0` or `tolerance: 0` — wins over
the default.  Fields such as `adaptiveSampling` are only defaulted (`?? true`)
at their use sites, so they stay optional here. -/
def mergeOptions (o : OptionsIn) : Options :=
  { width := o.width.getD 20
    height := o.height.getD 20
    charBudget := o.charBudget.getD 4000
    tolerance := o.tolerance.getD 10
    dithering := o.dithering.getD true
    ditheringStrength := o.ditheringStrength.getD 85
    texturePenalty := o.texturePenalty.getD 55
    rasterSamples := o.rasterSamples.getD 3
    rasterMaxSourceSide := o.rasterMaxSourceSide.getD 2048
    colorMetric := o.colorMetric.getD "oklab"
    adaptiveSampling := o.adaptiveSampling
    lanczosInterpolation := o.lanczosInterpolation
    adaptiveDithering := o.adaptiveDithering
    sharpeningStrength := o.sharpeningStrength }

/-- OKLab of an 8-bit colour (the `_lab` cache of `prepareEmojiColors`). -/
def oklabOf (rgb : Rgb) : Lab := linearToOklab (rgb8ToLinear rgb)

/-- The `_labProfile` cache: OKLab plus weight for each profile cluster. -/
def labProfileOf (e : Emoji) : List (Lab × ℚ) :=
  e.colorProfile.map (fun p => (oklabOf p.rgb, p.weight))

/-- Effective variance after `prepareEmojiColors` (999 sentinel when the
field is missing). -/
def emojiVariance (e : Emoji) : ℚ := e.variance.getD 999

/-- Bucket key of `buildColorIndex`: quantized OKLab coordinates with fixed
bin widths `binL = 0.05`, `binA = binB = 0.04`. -/
def bucketKey (rgb : Rgb) : ℤ × ℤ × ℤ :=
  let lab := oklabOf rgb
  (⌊lab.L / 0.05⌋, ⌊lab.a / 0.04⌋, ⌊lab.b / 0.04⌋)

/-- A bucket map: JS `Map` from the string key `"${kL},${kA},${kB}"`
(represented by the integer triple) to the entry list; absent keys read as
the empty list. -/
def BucketMap : Type := ℤ × ℤ × ℤ → List Emoji

/-- Source `pushToBucket(emoji, rgb)` inside `buildColorIndex`: append the
entry to its colour's bucket unless it is already the bucket's last element
(dedup when mean and accent land in one bucket). -/
def pushToBucket (m : BucketMap) (e : Emoji) (rgb : Rgb) : BucketMap :=
  let key := bucketKey rgb
  fun k =>
    if k = key then
      let arr := m key
      if arr.getLast? = some e then arr else arr ++ [e]
    else m k

/-- One iteration of the `buildColorIndex` loop: push the entry's mean
colour, its accent colour, and each multi-cluster profile colour. -/
def pushEmoji (m : BucketMap) (e : Emoji) : BucketMap :=
  match e.color with
  | none => m
  | some c =>
    let m1 := pushToBucket m e c
    let m2 := match e.accentColor with
      | some ac => pushToBucket m1 e ac
      | none => m1
    e.colorProfile.foldl (fun acc p => pushToBucket acc e p.rgb) m2

/-- Source `buildColorIndex()`: built only for palettes of at least 1000
entries, otherwise `null`. -/
def buildColorIndex (emojis : List Emoji) : Option BucketMap :=
  if emojis.length < 1000 then none
  else some (emojis.foldl pushEmoji (fun _ => []))

/-- A constructed `PixelArtConverter`: palette, merged options, and the
spatial colour index built by the constructor. -/
structure Converter where
  emojis : List Emoji
  options : Options
  colorIndex : Option BucketMap

/-- The `PixelArtConverter` constructor. -/
def mkConverter (emojis : List Emoji) (o : OptionsIn) : Converter :=
  { emojis := emojis
    options := mergeOptions o
    colorIndex := buildColorIndex emojis }

/-- The integers `-r, ..., r`, the range of each nested loop in
`getCandidateEmojis.collect(radius)`. -/
def intRange (r : ℤ) : List ℤ :=
  (List.range (2 * r.toNat + 1)).map (fun (i : ℕ) => (i : ℤ) - r)

/-- Source `collect(radius)` inside `getCandidateEmojis`: concatenation of
every bucket in the `(2r+1)³` neighborhood of the key `k`. -/
def collectBuckets (m : BucketMap) (k : ℤ × ℤ × ℤ) (radius : ℤ) : List Emoji :=
  (intRange radius).flatMap fun dL =>
    (intRange radius).flatMap fun da =>
      (intRange radius).flatMap fun db =>
        m (k.1 + dL, k.2.1 + da, k.2.2 + db)

/-- Source `getCandidateEmojis(targetColor)`: 27-bucket neighborhood, widened
by the full 125-bucket neighborhood when fewer than 200 candidates are found,
falling back to the whole palette when no bucket is populated. -/
def getCandidateEmojis (cv : Converter) (targetColor : Rgb) : List Emoji :=
  match cv.colorIndex with
  | none => cv.emojis
  | some m =>
    let k := bucketKey targetColor
    let cands1 := collectBuckets m k 1
    let cands :=
      if cands1.length < 200 then cands1 ++ collectBuckets m k 2 else cands1
    if 0 < cands.length then cands else cv.emojis

/-- Emoji name patterns exempted from the duplication cap. -/
def exemptedEmojiPatterns : List String :=
  ["space", "blank", "white", "black", "red", "blue", "green", "yellow", "square"]

/-- Whether the character list `n` starts the character list `l`. -/
def listStartsWith : List Char → List Char → Bool
  | [], _ => true
  | _ :: _, [] => false
  | nc :: nrest, c :: rest => nc == c && listStartsWith nrest rest

/-- Whether the character list `n` occurs contiguously inside `l`. -/
def listHasSub (n : List Char) : List Char → Bool
  | [] => n.isEmpty
  | c :: rest => listStartsWith n (c :: rest) || listHasSub n rest

/-- JavaScript `hay.includes(needle)` on strings. -/
def strIncludes (hay needle : String) : Bool := listHasSub needle.toList hay.toList

/-- JavaScript `toLowerCase()` on one character (ASCII range, which covers
every emoji name and pattern compared here). -/
def jsCharLower (c : Char) : Char :=
  if 'A' ≤ c ∧ c ≤ 'Z' then Char.ofNat (c.toNat + 32) else c

/-- JavaScript `s.toLowerCase()`. -/
def jsToLower (s : String) : String := String.mk (s.data.map jsCharLower)

/-- Source `isExemptedEmoji(emojiName)`. -/
def isExemptedEmoji (name : String) : Bool :=
  exemptedEmojiPatterns.any fun pattern => strIncludes (jsToLower name) pattern

/-- The per-run usage tracker (`this.usedEmojis`, name → use count). -/
def Usage : Type := String → ℕ

/-- Source cap computation in `convert`: `tolerance ≥ 100` means unlimited
(`⊤` models JS `Infinity`), otherwise `max(1, ⌊totalPixels·tolerance/100⌋)`. -/
def computeMaxEmojiUses (tolerance : ℚ) (totalPixels : ℕ) : WithTop ℤ :=
  if 100 ≤ tolerance then ⊤
  else ((max 1 ⌊(totalPixels : ℚ) * (tolerance / 100)⌋ : ℤ) : WithTop ℤ)

/-- Whether a freshly computed distance beats the best so far (`none` models
the JS `Infinity` initial value). -/
def distBeats (d : ℝ) : Option (Emoji × ℝ) → Prop
  | none => True
  | some p => d < p.2

/-- The `allowed` predicate of the candidate loop:
`isExempted || usageCount < maxUses`. -/
def AllowedEntry (maxUses : WithTop ℤ) (used : Usage) (e : Emoji) : Prop :=
  isExemptedEmoji e.name = true ∨ ((used e.name : ℤ) : WithTop ℤ) < maxUses

/-- Minimum of the per-cluster profile distances, each divided by
`0.5 + weight` (the JS loop starting from `dist = Infinity`, modelled by the
`Option` accumulator). -/
def profileMinDist (distFn : Lab → Lab → ℝ) (target : Lab)
    (profile : List (Lab × ℚ)) : Option ℝ :=
  profile.foldl
    (fun acc p =>
      let d := distFn target p.1 / (0.5 + (p.2 : ℝ))
      match acc with
      | none => some d
      | some cur => if d < cur then some d else some cur)
    none

/-- The distance the candidate loop of `findBestEmoji` assigns to one
candidate emoji with colour `c`: profile minimum (or mean/accent minimum),
plus the colour-error penalty and the texture penalty. -/
def candidateScore (opts : Options) (targetLab : Lab) (accentBias : ℚ)
    (e : Emoji) (c : Rgb) : ℝ :=
  let distFn : Lab → Lab → ℝ :=
    if opts.colorMetric = "oklab-hk" then fun a b => oklabDistanceCalibrated a b
    else fun a b => oklabDistance a b false
  let base :=
    if e.colorProfile ≠ [] then
      match profileMinDist distFn targetLab (labProfileOf e) with
      | some d => d
      | none => 0
    else
      let d0 := distFn targetLab (oklabOf c)
      match e.accentColor with
      | some ac => min d0 (distFn targetLab (oklabOf ac) * (accentBias : ℝ))
      | none => d0
  let base1 := if e.colorError then base + 0.35 else base
  let textureWeight : ℚ := max 0 (min 1 (opts.texturePenalty / 100))
  if 0 < textureWeight then
    base1 + ((max 0 (min 255 (emojiVariance e)) / 255 : ℚ) : ℝ) *
      (0.28 * (textureWeight : ℝ))
  else base1

/-- State of the candidate scan: best overall and best still-allowed
candidate, each with its distance. -/
structure MatchState where
  best : Option (Emoji × ℝ)
  bestAllowed : Option (Emoji × ℝ)

/-- One step of the `findBestEmoji` candidate loop. -/
def matchStep (cv : Converter) (maxUses : WithTop ℤ) (used : Usage)
    (targetLab : Lab) (accentBias : ℚ) (st : MatchState) (e : Emoji) :
    MatchState :=
  match e.color with
  | none => st
  | some c =>
    let dist := candidateScore cv.options targetLab accentBias e c
    let st1 := if distBeats dist st.best then { st with best := some (e, dist) } else st
    if 100 ≤ cv.options.tolerance then st1
    else
      if AllowedEntry maxUses used e ∧ distBeats dist st1.bestAllowed then
        { st1 with bestAllowed := some (e, dist) }
      else st1

/-- Source `findBestEmoji(targetColor)`: scan the candidate set, choose the
best allowed candidate (or the overall best when none is allowed or the
tolerance is maximal), and increment the chosen entry's usage count. -/
def findBestEmoji (cv : Converter) (maxUses : WithTop ℤ) (used : Usage)
    (targetColor : Rgb) : Option Emoji × Usage :=
  let candidates := getCandidateEmojis cv targetColor
  let targetLab := oklabOf targetColor
  let fromWhite : ℤ :=
    (255 - (targetColor.r : ℤ)) + (255 - (targetColor.g : ℤ)) +
      (255 - (targetColor.b : ℤ))
  let accentBias : ℚ := if 90 < fromWhite then 0.85 else 1.05
  let st := candidates.foldl
    (matchStep cv maxUses used targetLab accentBias) ⟨none, none⟩
  let chosen :=
    if 100 ≤ cv.options.tolerance then st.best.map Prod.fst
    else
      match st.bestAllowed with
      | some p => some p.1
      | none => st.best.map Prod.fst
  match chosen with
  | some e => (some e, fun n => if n = e.name then used n + 1 else used n)
  | none => (none, used)

/-- Source `findBestEmojiFromLinear(targetLinear)`. -/
def findBestEmojiFromLinear (cv : Converter) (maxUses : WithTop ℤ)
    (used : Usage) (targetLinear : LinRgb) : Option Emoji × Usage :=
  findBestEmoji cv maxUses used (linearToRgb8Color targetLinear)

/-- Constant `MIN_DIMENSION`. -/
def minDimension : ℕ := 5

/-- Constant `AVG_EMOJI_LENGTH`. -/
def avgEmojiLength : ℚ := 10

/-- Source `adjustDimensionsForBudget(width, height)`. -/
def adjustDimensionsForBudget (opts : Options) (width height : ℕ) : ℕ × ℕ :=
  if opts.charBudget = 0 then (width, height)
  else
    let maxPixels : ℤ := ⌊opts.charBudget / avgEmojiLength⌋
    let currentPixels : ℤ := (width * height : ℕ)
    if currentPixels ≤ maxPixels then (width, height)
    else
      let scale : ℝ := Real.sqrt ((maxPixels : ℝ) / (currentPixels : ℝ))
      (max minDimension ⌊(width : ℝ) * scale⌋.toNat,
       max minDimension ⌊(height : ℝ) * scale⌋.toNat)

/-- Chebyshev distance between two bucket keys: the index neighborhood of
radius `r` around `k` is exactly the set of keys at Chebyshev distance ≤ r. -/
def chebyshevKeyDist (k1 k2 : ℤ × ℤ × ℤ) : ℤ :=
  max |k1.1 - k2.1| (max |k1.2.1 - k2.2.1| |k1.2.2 - k2.2.2|)

/-- The bucket radius of the final candidate collection pass: 2 when the
27-bucket pass found fewer than 200 candidates (the widened 125-bucket
neighborhood), otherwise 1. -/
def finalSearchRadius (cv : Converter) (targetColor : Rgb) : ℤ :=
  match cv.colorIndex with
  | none => 1
  | some m =>
    if (collectBuckets m (bucketKey targetColor) 1).length < 200 then 2 else 1

/-- The zero linear-RGB triple (fresh error-buffer cells). -/
def zeroLin : LinRgb := ⟨0, 0, 0⟩

/-- Componentwise sum of linear-RGB triples. -/
def addLin (a b : LinRgb) : LinRgb := ⟨a.r + b.r, a.g + b.g, a.b + b.b⟩

/-- Componentwise scaling, as in `err.r * (7/16)`. -/
def scaleLin (v : LinRgb) (s : ℝ) : LinRgb := ⟨v.r * s, v.g * s, v.b * s⟩

/-- The per-run error buffer, indexed `(y, x)` like `error[y][x]`. -/
def ErrorBuffer : Type := ℤ × ℤ → LinRgb

/-- Accumulate a weighted error into one buffer cell
(`error[y][x].r += ...`). -/
def addErrAt (buf : ErrorBuffer) (p : ℤ × ℤ) (v : LinRgb) : ErrorBuffer :=
  fun q => if q = p then addLin (buf p) v else buf q

/-- The Floyd–Steinberg diffusion step of `convert`: distribute the scaled
residual `err` of cell `(y, x)` to the four forward neighbors (weights 7/16,
3/16, 5/16, 1/16), mirrored in serpentine rows, each add guarded by the
source's bounds checks. -/
def diffuseError (buf : ErrorBuffer) (w h : ℕ) (x y : ℤ) (serp : Bool)
    (err : LinRgb) : ErrorBuffer :=
  let right : ℤ := if serp then -1 else 1
  let left : ℤ := if serp then 1 else -1
  let b1 := if 0 ≤ x + right ∧ x + right < (w : ℤ) then
      addErrAt buf (y, x + right) (scaleLin err (7 / 16)) else buf
  let b2 := if y + 1 < (h : ℤ) ∧ 0 ≤ x + left ∧ x + left < (w : ℤ) then
      addErrAt b1 (y + 1, x + left) (scaleLin err (3 / 16)) else b1
  let b3 := if y + 1 < (h : ℤ) then
      addErrAt b2 (y + 1, x) (scaleLin err (5 / 16)) else b2
  if y + 1 < (h : ℤ) ∧ 0 ≤ x + right ∧ x + right < (w : ℤ) then
    addErrAt b3 (y + 1, x + right) (scaleLin err (1 / 16)) else b3

/-- Sum of one component of an error buffer over the whole `h × w` grid;
used to state that diffusion drops no error at interior cells. -/
def bufGridSum (buf : ErrorBuffer) (w h : ℕ) (f : LinRgb → ℝ) : ℝ :=
  ∑ p ∈ Finset.range h ×ˢ Finset.range w, f (buf ((p.1 : ℤ), (p.2 : ℤ)))

/-- The valid 5×5 neighborhood of `(y, x)` (radius-2, clipped to the grid),
matching the bounds-checked double loop of `computeLocalVariance`. -/
def localNeighborhood (w h : ℕ) (y x : ℕ) : List (ℕ × ℕ) :=
  (intRange 2).flatMap fun dy =>
    (intRange 2).flatMap fun dx =>
      let ny := (y : ℤ) + dy
      let nx := (x : ℤ) + dx
      if 0 ≤ ny ∧ ny < (h : ℤ) ∧ 0 ≤ nx ∧ nx < (w : ℤ) then
        [(ny.toNat, nx.toNat)]
      else []

/-- Source `computeLocalVariance(pixels, w, h)` at one cell: normalized RMS
colour variance of the clipped 5×5 neighborhood, and the opposing-edge
gradient estimate. -/
def computeLocalVariance (pixels : ℕ → ℕ → Rgb) (w h : ℕ) (y x : ℕ) :
    ℝ × ℝ :=
  let nb := localNeighborhood w h y x
  let count : ℕ := nb.length
  let meanR : ℝ := (nb.map fun p => ((pixels p.1 p.2).r : ℝ)).sum / count
  let meanG : ℝ := (nb.map fun p => ((pixels p.1 p.2).g : ℝ)).sum / count
  let meanB : ℝ := (nb.map fun p => ((pixels p.1 p.2).b : ℝ)).sum / count
  let varR : ℝ := (nb.map fun p => (((pixels p.1 p.2).r : ℝ) - meanR) ^ 2).sum
  let varG : ℝ := (nb.map fun p => (((pixels p.1 p.2).g : ℝ) - meanG) ^ 2).sum
  let varB : ℝ := (nb.map fun p => (((pixels p.1 p.2).b : ℝ) - meanB) ^ 2).sum
  let variance := Real.sqrt ((varR + varG + varB) / (count * 3)) / 255
  let lx := x - 1
  let rx := min (w - 1) (x + 1)
  let ty := y - 1
  let by' := min (h - 1) (y + 1)
  let pL := pixels y lx
  let pR := pixels y rx
  let pT := pixels ty x
  let pB := pixels by' x
  let avgLeft : ℝ := ((pL.r : ℝ) + pL.g + pL.b) / 3
  let avgRight : ℝ := ((pR.r : ℝ) + pR.g + pR.b) / 3
  let avgTop : ℝ := ((pT.r : ℝ) + pT.g + pT.b) / 3
  let avgBottom : ℝ := ((pB.r : ℝ) + pB.g + pB.b) / 3
  let gradient := max |avgRight - avgLeft| |avgBottom - avgTop| / 255
  (variance, gradient)

/-- The adaptive dithering strength of one cell: sigmoid attenuation
(k = 10, threshold = 0.15) on local variance, with an up-to-20% boost on
smooth high-gradient ramps; `none` models disabled adaptive dithering. -/
def adaptiveStrength (base : ℝ) (lv : Option (ℝ × ℝ)) : ℝ :=
  match lv with
  | none => base
  | some vg =>
    let s := base * (1 / (1 + Real.exp (10 * (vg.1 - 0.15))))
    if 0.05 < vg.2 ∧ vg.1 < 0.15 then s * (1 + 0.2 * (vg.2 / 0.5)) else s

/-- The per-run mutable state of the matching loop: the usage tracker and
the dithering error buffer. -/
structure RunState where
  used : Usage
  err : ErrorBuffer

/-- The initial run state (`usedEmojis.clear()`, zeroed error buffer). -/
def initRunState : RunState := { used := fun _ => 0, err := fun _ => zeroLin }

/-- The body of the matching loop of `convert` for one cell `(y, x)`:
perturb by accumulated error (when dithering), match, and diffuse the scaled
residual; without dithering, match the raw pixel. -/
def processCell (cv : Converter) (maxUses : WithTop ℤ) (w h : ℕ)
    (pixels : ℕ → ℕ → Rgb) (baseDitherStrength : ℝ) (useDithering : Bool)
    (localVariance : Option (ℕ → ℕ → ℝ × ℝ)) (serp : Bool) (y x : ℕ)
    (st : RunState) : Option Emoji × RunState :=
  let pixel := pixels y x
  if useDithering then
    let baseLin := rgb8ToLinear pixel
    let e := st.err ((y : ℤ), (x : ℤ))
    let targetLin := clampLinear (addLin baseLin e)
    let res := findBestEmojiFromLinear cv maxUses st.used targetLin
    match res.1 with
    | none => (none, { used := res.2, err := st.err })
    | some em =>
      match em.color with
      | none => (some em, { used := res.2, err := st.err })
      | some c =>
        let chosenLin := rgb8ToLinear c
        let strength := adaptiveStrength baseDitherStrength
          (localVariance.map fun lv => lv y x)
        let errv : LinRgb :=
          ⟨(targetLin.r - chosenLin.r) * strength,
           (targetLin.g - chosenLin.g) * strength,
           (targetLin.b - chosenLin.b) * strength⟩
        (some em,
         { used := res.2,
           err := diffuseError st.err w h (x : ℤ) (y : ℤ) serp errv })
  else
    let res := findBestEmoji cv maxUses st.used pixel
    (res.1, { used := res.2, err := st.err })

/-- Whether row `y` is scanned right-to-left
(`useDithering && (y % 2 === 1)`). -/
def rowSerp (cv : Converter) (y : ℕ) : Bool :=
  cv.options.dithering && (y % 2 == 1)

/-- Column traversal order of a row. -/
def rowOrder (serp : Bool) (w : ℕ) : List ℕ :=
  if serp then (List.range w).reverse else List.range w

/-- The derived per-run cap (`this.maxEmojiUses` as set by `convert`). -/
def runMaxUses (cv : Converter) (w h : ℕ) : WithTop ℤ :=
  computeMaxEmojiUses cv.options.tolerance (w * h)

/-- Base diffusion strength `max(0, min(1, ditheringStrength / 100))`. -/
def runBaseStrength (cv : Converter) : ℝ :=
  max 0 (min 1 ((cv.options.ditheringStrength : ℝ) / 100))

/-- The precomputed local-variance map (present only when dithering and
adaptive dithering are both on). -/
def runLocalVariance (cv : Converter) (w h : ℕ) (pixels : ℕ → ℕ → Rgb) :
    Option (ℕ → ℕ → ℝ × ℝ) :=
  if cv.options.dithering && cv.options.adaptiveDithering.getD true then
    some (computeLocalVariance pixels w h)
  else none

/-- The cell-processing function of the run, with the per-run parameters
fixed. -/
def cellProc (cv : Converter) (w h : ℕ) (pixels : ℕ → ℕ → Rgb) (y : ℕ) :
    ℕ → RunState → Option Emoji × RunState :=
  fun x st =>
    processCell cv (runMaxUses cv w h) w h pixels (runBaseStrength cv)
      cv.options.dithering (runLocalVariance cv w h pixels) (rowSerp cv y)
      y x st

/-- One row of the matching loop: fold over the traversal order, appending
results left-to-right or prepending them in serpentine rows (`row.unshift`). -/
def rowProc (cv : Converter) (w h : ℕ) (pixels : ℕ → ℕ → Rgb) (y : ℕ)
    (st : RunState) : List (Option Emoji) × RunState :=
  (rowOrder (rowSerp cv y) w).foldl
    (fun acc x =>
      let r := cellProc cv w h pixels y x acc.2
      (if rowSerp cv y then r.1 :: acc.1 else acc.1 ++ [r.1], r.2))
    ([], st)

/-- The matching loop of `convert`: grid of matched entries (the ResultGrid)
plus the final run state. -/
def convertCore (cv : Converter) (w h : ℕ) (pixels : ℕ → ℕ → Rgb) :
    List (List (Option Emoji)) × RunState :=
  (List.range h).foldl
    (fun acc y =>
      let r := rowProc cv w h pixels y acc.2
      (acc.1 ++ [r.1], r.2))
    ([], initRunState)

/-- Outputs of a stateful cell/row machine run over a traversal order, in
processing order. -/
def machineOutputs {σ α : Type} (f : ℕ → σ → α × σ) : List ℕ → σ → List α
  | [], _ => []
  | x :: rest, st => (f x st).1 :: machineOutputs f rest (f x st).2

/-- State of a stateful machine after running over a traversal order. -/
def machineState {σ α : Type} (f : ℕ → σ → α × σ) : List ℕ → σ → σ
  | [], st => st
  | x :: rest, st => machineState f rest (f x st).2

/-- The columns processed before column `x` of a row, in processing order:
`[w-1, ..., x+1]` for serpentine rows, `[0, ..., x-1]` otherwise. -/
def cellsBeforeCol (serp : Bool) (w x : ℕ) : List ℕ :=
  if serp then ((List.range w).reverse).take (w - 1 - x)
  else (List.range w).take x

/-- Run state at the start of row `y` (after the rows above it). -/
def rowStartState (cv : Converter) (w h : ℕ) (pixels : ℕ → ℕ → Rgb)
    (y : ℕ) : RunState :=
  machineState (rowProc cv w h pixels) ((List.range h).take y) initRunState

/-- The entry matched for the pixel at `(y, x)`: the outcome of
`processCell` at `(y, x)` under the run state reached when the loop gets to
that cell in processing order. -/
def matchedAtCell (cv : Converter) (w h : ℕ) (pixels : ℕ → ℕ → Rgb)
    (y x : ℕ) : Option Emoji :=
  (cellProc cv w h pixels y x
    (machineState (cellProc cv w h pixels y)
      (cellsBeforeCol (rowSerp cv y) w x)
      (rowStartState cv w h pixels y))).1

/-- A decoded source image (the bitmap behind the canvas `ImageData`),
pixels addressed `(y, x)`. -/
structure ImageBitmap where
  width : ℕ
  height : ℕ
  data : ℕ → ℕ → Rgba

/-- Clamp a real sample coordinate to `[0, n-1]`
(`Math.max(0, Math.min(n - 1, x))`). -/
def clampCoord (n : ℕ) (x : ℝ) : ℝ := max 0 (min ((n : ℝ) - 1) x)

/-- Clamp an integer pixel index to `[0, n-1]`. -/
def clampIdx (n : ℕ) (i : ℤ) : ℕ := (max 0 (min ((n : ℤ) - 1) i)).toNat

/-- Read one source pixel as linear RGB composited over a white background
in linear space (`a·lin(c) + (1-a)·1.0` per channel). -/
def sampleAlphaLin (data : ℕ → ℕ → Rgba) (px py : ℕ) : LinRgb :=
  let p := data py px
  let a : ℝ := (p.a : ℝ) / 255
  ⟨a * srgb8ToLinear01 p.r + (1 - a) * 1.0,
   a * srgb8ToLinear01 p.g + (1 - a) * 1.0,
   a * srgb8ToLinear01 p.b + (1 - a) * 1.0⟩

/-- The 6×6 Lanczos3 tap offsets (`dy, dx ∈ {-2..3}`). -/
def lanczosOffsets : List ℤ := [-2, -1, 0, 1, 2, 3]

/-- Source `sampleSourceLanczos(imageData, sw, sh, x, y)`. -/
def sampleSourceLanczos (data : ℕ → ℕ → Rgba) (sw sh : ℕ) (x y : ℝ) :
    LinRgb :=
  let xC := clampCoord sw x
  let yC := clampCoord sh y
  let x0 := ⌊xC⌋
  let y0 := ⌊yC⌋
  let terms : List (ℝ × ℝ × ℝ × ℝ) :=
    lanczosOffsets.flatMap fun dy =>
      lanczosOffsets.map fun dx =>
        let py := clampIdx sh (y0 + dy)
        let px := clampIdx sw (x0 + dx)
        let wy := lanczos3 (yC - (py : ℝ))
        let wx := lanczos3 (xC - (px : ℝ))
        let wgt := wx * wy
        let c := sampleAlphaLin data px py
        (c.r * wgt, c.g * wgt, c.b * wgt, wgt)
  let sumR := (terms.map fun t => t.1).sum
  let sumG := (terms.map fun t => t.2.1).sum
  let sumB := (terms.map fun t => t.2.2.1).sum
  let sumW := (terms.map fun t => t.2.2.2).sum
  let inv := if 0 < sumW then 1 / sumW else 1
  ⟨sumR * inv, sumG * inv, sumB * inv⟩

/-- Source `sampleSourceLinear(imageData, sw, sh, x, y)` (bilinear). -/
def sampleSourceLinear (data : ℕ → ℕ → Rgba) (sw sh : ℕ) (x y : ℝ) :
    LinRgb :=
  let xC := clampCoord sw x
  let yC := clampCoord sh y
  let x0 := ⌊xC⌋
  let y0 := ⌊yC⌋
  let x1 : ℤ := min ((sw : ℤ) - 1) (x0 + 1)
  let y1 : ℤ := min ((sh : ℤ) - 1) (y0 + 1)
  let tx := xC - (x0 : ℝ)
  let ty := yC - (y0 : ℝ)
  let c00 := sampleAlphaLin data x0.toNat y0.toNat
  let c10 := sampleAlphaLin data x1.toNat y0.toNat
  let c01 := sampleAlphaLin data x0.toNat y1.toNat
  let c11 := sampleAlphaLin data x1.toNat y1.toNat
  ⟨lerp (lerp c00.r c10.r tx) (lerp c01.r c11.r tx) ty,
   lerp (lerp c00.g c10.g tx) (lerp c01.g c11.g tx) ty,
   lerp (lerp c00.b c10.b tx) (lerp c01.b c11.b tx) ty⟩

/-- Source `detectEdge`: variance of 5 probe samples (4 corners + center)
of the cell's source rectangle. -/
def detectEdge (data : ℕ → ℕ → Rgba) (sw sh : ℕ) (x0 x1 y0 y1 : ℝ) : ℝ :=
  let samples : List LinRgb :=
    [sampleSourceLanczos data sw sh x0 y0,
     sampleSourceLanczos data sw sh x1 y0,
     sampleSourceLanczos data sw sh x0 y1,
     sampleSourceLanczos data sw sh x1 y1,
     sampleSourceLanczos data sw sh ((x0 + x1) / 2) ((y0 + y1) / 2)]
  let avgR := (samples.map fun s => s.r).sum / 5
  let avgG := (samples.map fun s => s.g).sum / 5
  let avgB := (samples.map fun s => s.b).sum / 5
  let varR := (samples.map fun s => (s.r - avgR) ^ 2).sum
  let varG := (samples.map fun s => (s.g - avgG) ^ 2).sum
  let varB := (samples.map fun s => (s.b - avgB) ^ 2).sum
  Real.sqrt ((varR + varG + varB) / 15)

/-- Source `getSourceImageData(img)`: dimensions of the snapshot, downscaled
to `rasterMaxSourceSide`; the canvas `drawImage` resampling itself is the
environment's, modelled as index subsampling of the decoded bitmap. -/
def getSourceImageData (opts : Options) (img : ImageBitmap) :
    (ℕ → ℕ → Rgba) × ℕ × ℕ :=
  let maxSide : ℚ := max 1 opts.rasterMaxSourceSide
  let scale : ℚ := min 1 (maxSide / (max img.width img.height : ℕ))
  let sw := max 1 (⌊(img.width : ℚ) * scale⌋.toNat)
  let sh := max 1 (⌊(img.height : ℚ) * scale⌋.toNat)
  (fun y x => img.data (y * img.height / sh) (x * img.width / sw), sw, sh)

/-- JavaScript `parseInt` on a finite numeric value: truncation toward 0. -/
def jsParseIntOfRat (q : ℚ) : ℤ := if q < 0 then -⌊-q⌋ else ⌊q⌋

/-- Base supersampling count:
`Math.max(1, Math.min(8, parseInt(rasterSamples, 10) || 3))`. -/
def rasterBaseSamples (opts : Options) : ℕ :=
  let p := jsParseIntOfRat opts.rasterSamples
  (max 1 (min 8 (if p = 0 then 3 else p))).toNat

/-- Source `rasterizeImage(img, targetWidth, targetHeight)` as the per-cell
sampling function: edge-adaptive supersampling of the cell's source
rectangle, averaged in linear space and converted back to 8-bit sRGB. -/
def rasterizeImage (opts : Options) (img : ImageBitmap) (tw th : ℕ) :
    ℕ → ℕ → Rgb :=
  let src := getSourceImageData opts img
  let data := src.1
  let sw := src.2.1
  let sh := src.2.2
  let baseSamples := rasterBaseSamples opts
  let useAdaptive := opts.adaptiveSampling.getD true
  let useLanczos := opts.lanczosInterpolation.getD true
  let sampleFunc := if useLanczos then sampleSourceLanczos else sampleSourceLinear
  fun y x =>
    let x0 : ℝ := ((x : ℝ) * sw) / tw
    let x1 : ℝ := (((x : ℝ) + 1) * sw) / tw
    let y0 : ℝ := ((y : ℝ) * sh) / th
    let y1 : ℝ := (((y : ℝ) + 1) * sh) / th
    let samples : ℕ :=
      if useAdaptive then
        min 8 (max baseSamples
          (⌈(baseSamples : ℝ) * (1 + detectEdge data sw sh x0 x1 y0 y1 * 2)⌉.toNat))
      else baseSamples
    let subs : List LinRgb :=
      (List.range samples).flatMap fun sy =>
        (List.range samples).map fun sx =>
          let fy := ((sy : ℝ) + 0.5) / samples
          let fx := ((sx : ℝ) + 0.5) / samples
          sampleFunc data sw sh (lerp x0 x1 fx) (lerp y0 y1 fy)
    let inv : ℝ := 1 / ((samples : ℝ) * samples)
    ⟨(linear01ToSrgb8 (clamp01 ((subs.map fun c => c.r).sum * inv))).toNat,
     (linear01ToSrgb8 (clamp01 ((subs.map fun c => c.g).sum * inv))).toNat,
     (linear01ToSrgb8 (clamp01 ((subs.map fun c => c.b).sum * inv))).toNat⟩

/-- Source `applySharpeningFilter(pixels, width, height, strength)`:
unsharp mask in linear space over the clamped 3×3 neighborhood. -/
def applySharpeningFilter (pixels : ℕ → ℕ → Rgb) (width height : ℕ)
    (strength : ℝ) : ℕ → ℕ → Rgb :=
  if strength ≤ 0 then pixels
  else
    let linear : ℕ → ℕ → LinRgb := fun y x =>
      let p := pixels y x
      ⟨srgb8ToLinear01 p.r, srgb8ToLinear01 p.g, srgb8ToLinear01 p.b⟩
    fun y x =>
      let center := linear y x
      let nb : List LinRgb :=
        (intRange 1).flatMap fun dy =>
          (intRange 1).map fun dx =>
            linear (clampIdx height ((y : ℤ) + dy)) (clampIdx width ((x : ℤ) + dx))
      let count : ℝ := nb.length
      let blurR := (nb.map fun c => c.r).sum / count
      let blurG := (nb.map fun c => c.g).sum / count
      let blurB := (nb.map fun c => c.b).sum / count
      ⟨(linear01ToSrgb8 (center.r + strength * (center.r - blurR))).toNat,
       (linear01ToSrgb8 (center.g + strength * (center.g - blurG))).toNat,
       (linear01ToSrgb8 (center.b + strength * (center.b - blurB))).toNat⟩

/-- Source `extractPixelColors(img, width, height)`: gamma-correct
rasterization followed by the optional sharpening pass. -/
def extractPixelColors (opts : Options) (img : ImageBitmap)
    (width height : ℕ) : ℕ → ℕ → Rgb :=
  let pixels := rasterizeImage opts img width height
  let sharpeningStrength : ℚ := max 0 (min 2 (opts.sharpeningStrength.getD 0 / 100))
  if 0 < sharpeningStrength then
    applySharpeningFilter pixels width height (sharpeningStrength : ℝ)
  else pixels

/-- Constant `FALLBACK_EMOJI`. -/
def fallbackEmojiName : String := "white_square"

/-- The serialized token of one ResultGrid cell. -/
def emojiToken (e : Option Emoji) : String :=
  match e with
  | some em => ":" ++ em.name ++ ":"
  | none => ":" ++ fallbackEmojiName ++ ":"

/-- Source `generateTextOutput(grid)`: newline-joined rows of concatenated
tokens. -/
def generateTextOutput (grid : List (List (Option Emoji))) : String :=
  String.intercalate "\n" (grid.map fun row => String.join (row.map emojiToken))

/-- Insertion-ordered counting map update (JS `Map.set(k, get(k)+1)`). -/
def bumpCount (counts : List (String × ℕ)) (name : String) :
    List (String × ℕ) :=
  if counts.any fun p => p.1 = name then
    counts.map fun p => if p.1 = name then (p.1, p.2 + 1) else p
  else counts ++ [(name, 1)]

/-- Source `calculateCharacterCount(grid)`. -/
def calculateCharacterCount (grid : List (List (Option Emoji))) : ℕ :=
  (grid.map fun row => (row.map fun e => (emojiToken e).length).sum).sum

/-- The statistics summary of a conversion. -/
structure Stats where
  totalEmojis : ℕ
  uniqueEmojis : ℕ
  nullPixels : ℕ
  dimensions : ℕ × ℕ
  characterCount : ℕ
  topEmojis : List (String × ℕ)

/-- Source `generateStats(grid)`. -/
def generateStats (grid : List (List (Option Emoji))) : Stats :=
  let cells := grid.flatten
  let counts := cells.foldl
    (fun acc e =>
      match e with
      | some em => bumpCount acc em.name
      | none => acc)
    []
  { totalEmojis := (cells.filter fun e => e.isSome).length
    uniqueEmojis := counts.length
    nullPixels := (cells.filter fun e => e.isNone).length
    dimensions := ((grid.headD []).length, grid.length)
    characterCount := calculateCharacterCount grid
    topEmojis := (counts.mergeSort fun a b => decide (b.2 ≤ a.2)).take 5 }

/-- The distinct error outcomes of `convert`: the "no palette" guard and an
image-load failure. -/
inductive ConvertError where
  | noEmojis
  | imageLoadFailed
deriving DecidableEq

/-- The value returned by a successful `convert`. -/
structure ConvertResult where
  grid : List (List (Option Emoji))
  output : String
  dimensions : ℕ × ℕ
  stats : Stats

/-- Source `convert(imageSource)`: the empty-palette guard runs before the
image is awaited; the loaded bitmap (or its failure) is the `loadResult`
parameter standing for the `loadImage` call. -/
def convert (cv : Converter) (loadResult : Except ConvertError ImageBitmap) :
    Except ConvertError ConvertResult :=
  if cv.emojis.isEmpty then Except.error ConvertError.noEmojis
  else
    match loadResult with
    | Except.error e => Except.error e
    | Except.ok img =>
      let dims := adjustDimensionsForBudget cv.options cv.options.width
        cv.options.height
      let pixels := extractPixelColors cv.options img dims.1 dims.2
      let core := convertCore cv dims.1 dims.2 pixels
      Except.ok
        { grid := core.1
          output := generateTextOutput core.1
          dimensions := dims
          stats := generateStats core.1 }

/-- The usage-cap invariant after `k` cells: every non-exempt name is used
at most once, and at most `k` palette entries have been used at all. -/
def UsageInv (es : List Emoji) (k : ℕ) (used : Usage) : Prop :=
  (∀ n, isExemptedEmoji n = false → used n ≤ 1) ∧
  es.countP (fun e => decide (1 ≤ used e.name)) ≤ k

/-- A single black palette entry used in the index-path analysis. -/
def dotEmoji : Emoji :=
  { name := "dot", color := some ⟨0, 0, 0⟩, accentColor := none
    colorProfile := [], variance := some 0, colorError := false }

/-- Distinct filler names: runs of `f` of pairwise distinct lengths. -/
def fillerName (i : ℕ) : String := String.mk (List.replicate (i + 1) 'f')

/-- Distinct bright filler colours (green channel saturated). -/
def fillerColor (i : ℕ) : Rgb := ⟨i % 256, 255, i / 256⟩

/-- A bright filler palette entry. -/
def fillerEmoji (i : ℕ) : Emoji :=
  { name := fillerName i, color := some (fillerColor i), accentColor := none
    colorProfile := [], variance := some 0, colorError := false }

/-- A 1000-entry palette (large enough to activate the spatial index):
one black entry plus 999 bright fillers. -/
def cexPalette : List Emoji := dotEmoji :: (List.range 999).map fillerEmoji

/-- Converter options with `tolerance: 0` and dithering off. -/
def cexOptions : OptionsIn :=
  { emptyOptionsIn with tolerance := some 0, dithering := some false }

/-- The converter built over the 1000-entry palette. -/
def cexCv : Converter := mkConverter cexPalette cexOptions

/-- The bucket map the constructor builds for that palette. -/
def cexMap : BucketMap := cexPalette.foldl pushEmoji (fun _ => [])

/-- An all-black source image. -/
def cexPixels : ℕ → ℕ → Rgb := fun _ _ => ⟨0, 0, 0⟩

/-- C7: the Lanczos3 kernel is exactly 1 at `x = 0`, exactly 0 for `|x| > 3`,
and agrees with `sinc x · sinc (x/3)` on `|x| ≤ 3`, so no division-by-zero
NaN can arise at `x = 0`. -/
theorem lanczos3_kernel_spec (x : ℝ) :
    lanczos3 0 = 1 ∧
    (3 < |x| → lanczos3 x = 0) ∧
    (|x| ≤ 3 → lanczos3 x = sinc x * sinc (x / 3)) := by
  refine ⟨by simp [lanczos3], fun h => ?_, fun h => ?_⟩
  · have hx : x < -3 ∨ 3 < x := by
      rcases abs_cases x with ⟨he, _⟩ | ⟨he, _⟩
      · right; linarith [he ▸ h]
      · left; linarith [he ▸ h]
    have hx0 : ¬ x = 0 := by
      rcases hx with h1 | h1 <;> intro h0 <;> rw [h0] at h1 <;> norm_num at h1
    simp only [lanczos3, if_neg hx0, if_pos hx]
  · by_cases hx0 : x = 0
    · simp [lanczos3, sinc, hx0]
    · have hx : ¬ (x < -3 ∨ 3 < x) := by
        rcases abs_cases x with ⟨he, _⟩ | ⟨he, _⟩ <;> push_neg <;>
          constructor <;> linarith [he ▸ h]
      have hpi : (Real.pi : ℝ) ≠ 0 := Real.pi_ne_zero
      have hx3 : x / 3 ≠ 0 := by
        intro h0
        exact hx0 (by linarith [(div_eq_zero_iff.mp h0).resolve_right (by norm_num)])
      simp only [lanczos3, sinc, if_neg hx0, if_neg hx, if_neg hx3]
      have : Real.pi * (x / 3) = Real.pi * x / 3 := by ring
      rw [this]
      field_simp
      ring

/-- Witness for C7 at concrete inputs: `lanczos3 4 = 0` (since `|4| > 3`) and
`lanczos3 (1/2)` matches the sinc product (since `|1/2| ≤ 3`). -/
theorem lanczos3_kernel_spec_witness :
    lanczos3 0 = 1 ∧ lanczos3 4 = 0 ∧
      lanczos3 (1 / 2) = sinc (1 / 2) * sinc (1 / 2 / 3) :=
  ⟨(lanczos3_kernel_spec 0).1,
   (lanczos3_kernel_spec 4).2.1 (by norm_num),
   (lanczos3_kernel_spec (1 / 2)).2.2 (by rw [abs_le]; norm_num)⟩

lemma oklabDistance_comm (a b : Lab) (e : Bool) :
    oklabDistance a b e = oklabDistance b a e := by
  cases e <;> simp only [oklabDistance, labChroma, Bool.false_eq_true,
    if_false, if_true, reduceIte] <;> (congr 1; ring_nf)

lemma oklabDistance_self (a : Lab) (e : Bool) : oklabDistance a a e = 0 := by
  cases e <;>
    simp [oklabDistance, labChroma, sub_self, Real.sqrt_eq_zero']

lemma oklabDistance_nonneg (a b : Lab) (e : Bool) : 0 ≤ oklabDistance a b e := by
  simp only [oklabDistance]
  exact Real.sqrt_nonneg _

lemma oklabDistanceCalibrated_comm (a b : Lab) :
    oklabDistanceCalibrated a b = oklabDistanceCalibrated b a := by
  simp only [oklabDistanceCalibrated]
  congr 1
  ring_nf

lemma oklabDistanceCalibrated_self (a : Lab) : oklabDistanceCalibrated a a = 0 := by
  simp [oklabDistanceCalibrated, sub_self]

lemma oklabDistanceCalibrated_nonneg (a b : Lab) :
    0 ≤ oklabDistanceCalibrated a b := by
  simp only [oklabDistanceCalibrated]
  exact Real.sqrt_nonneg _

lemma ciedeG_comm (a b : Lab) : ciedeG a b = ciedeG b a := by
  simp only [ciedeG]
  ring_nf

lemma ciedeA1p_swap (a b : Lab) : ciedeA1p b a = ciedeA2p a b := by
  unfold ciedeA1p ciedeA2p
  rw [ciedeG_comm]

lemma ciedeA2p_swap (a b : Lab) : ciedeA2p b a = ciedeA1p a b := by
  unfold ciedeA1p ciedeA2p
  rw [ciedeG_comm]

lemma ciedeC1p_swap (a b : Lab) : ciedeC1p b a = ciedeC2p a b := by
  unfold ciedeC1p ciedeC2p
  rw [ciedeA1p_swap]

lemma ciedeC2p_swap (a b : Lab) : ciedeC2p b a = ciedeC1p a b := by
  unfold ciedeC1p ciedeC2p
  rw [ciedeA2p_swap]

lemma ciedeH1p_swap (a b : Lab) : ciedeH1p b a = ciedeH2p a b := by
  unfold ciedeH1p ciedeH2p
  rw [ciedeA1p_swap]

lemma ciedeH2p_swap (a b : Lab) : ciedeH2p b a = ciedeH1p a b := by
  unfold ciedeH1p ciedeH2p
  rw [ciedeA2p_swap]

lemma ciedeDhp_swap (a b : Lab) : ciedeDhp b a = -(ciedeDhp a b) := by
  unfold ciedeDhp
  rw [ciedeC1p_swap a b, ciedeC2p_swap a b, ciedeH1p_swap a b, ciedeH2p_swap a b,
    mul_comm (ciedeC2p a b) (ciedeC1p a b)]
  set h1 := ciedeH1p a b
  set h2 := ciedeH2p a b
  by_cases hC : ciedeC1p a b * ciedeC2p a b = 0
  · simp [hC]
  · by_cases habs : |h2 - h1| ≤ 180
    · have habs' : |h1 - h2| ≤ 180 := by rwa [abs_sub_comm]
      simp [hC, habs, habs']
    · have habs' : ¬ |h1 - h2| ≤ 180 := by rwa [abs_sub_comm]
      by_cases hgt : 180 < h2 - h1
      · have h1gt : ¬ 180 < h1 - h2 := by
          push_neg
          linarith
        simp only [if_neg hC, if_neg habs, if_neg habs', if_pos hgt, if_neg h1gt]
        ring
      · have h1gt : 180 < h1 - h2 := by
          rcases lt_abs.mp (not_le.mp habs) with h | h
          · exact absurd h hgt
          · linarith
        simp only [if_neg hC, if_neg habs, if_neg habs', if_neg hgt, if_pos h1gt]
        ring

lemma ciedeHpm_swap (a b : Lab) : ciedeHpm b a = ciedeHpm a b := by
  unfold ciedeHpm
  rw [ciedeC1p_swap a b, ciedeC2p_swap a b, ciedeH1p_swap a b, ciedeH2p_swap a b,
    mul_comm (ciedeC2p a b) (ciedeC1p a b)]
  set h1 := ciedeH1p a b
  set h2 := ciedeH2p a b
  by_cases hC : ciedeC1p a b * ciedeC2p a b = 0
  · simp [hC]
    ring
  · by_cases habs : |h2 - h1| ≤ 180
    · have habs' : |h1 - h2| ≤ 180 := by rwa [abs_sub_comm]
      simp only [if_neg hC, if_pos habs, if_pos habs']
      ring
    · have habs' : ¬ |h1 - h2| ≤ 180 := by rwa [abs_sub_comm]
      by_cases hlt : h2 + h1 < 360
      · have hlt' : h1 + h2 < 360 := by linarith
        simp only [if_neg hC, if_neg habs, if_neg habs', if_pos hlt, if_pos hlt']
        ring
      · have hlt' : ¬ h1 + h2 < 360 := by
          push_neg at hlt ⊢
          linarith
        simp only [if_neg hC, if_neg habs, if_neg habs', if_neg hlt, if_neg hlt']
        ring

lemma ciedeT_swap (a b : Lab) : ciedeT b a = ciedeT a b := by
  unfold ciedeT
  rw [ciedeHpm_swap]

lemma ciedeSL_swap (a b : Lab) : ciedeSL b a = ciedeSL a b := by
  simp only [ciedeSL]
  rw [add_comm b.L a.L]

lemma ciedeSC_swap (a b : Lab) : ciedeSC b a = ciedeSC a b := by
  simp only [ciedeSC]
  rw [ciedeC1p_swap a b, ciedeC2p_swap a b,
    add_comm (ciedeC2p a b) (ciedeC1p a b)]

lemma ciedeSH_swap (a b : Lab) : ciedeSH b a = ciedeSH a b := by
  simp only [ciedeSH]
  rw [ciedeC1p_swap a b, ciedeC2p_swap a b, ciedeT_swap a b,
    add_comm (ciedeC2p a b) (ciedeC1p a b)]

lemma ciedeRT_swap (a b : Lab) : ciedeRT b a = ciedeRT a b := by
  simp only [ciedeRT]
  rw [ciedeC1p_swap a b, ciedeC2p_swap a b, ciedeHpm_swap a b,
    add_comm (ciedeC2p a b) (ciedeC1p a b)]

lemma ciedeDHp_swap (a b : Lab) : ciedeDHp b a = -(ciedeDHp a b) := by
  unfold ciedeDHp
  rw [ciedeC1p_swap a b, ciedeC2p_swap a b, ciedeDhp_swap a b,
    mul_comm (ciedeC2p a b) (ciedeC1p a b)]
  have h : -(ciedeDhp a b) * Real.pi / 360 = -(ciedeDhp a b * Real.pi / 360) := by
    ring
  rw [h, Real.sin_neg]
  ring

lemma ciede2000Distance_comm (a b : Lab) :
    ciede2000Distance a b = ciede2000Distance b a := by
  simp only [ciede2000Distance]
  rw [ciedeC1p_swap a b, ciedeC2p_swap a b, ciedeSL_swap a b, ciedeSC_swap a b,
    ciedeSH_swap a b, ciedeRT_swap a b, ciedeDHp_swap a b]
  congr 1
  ring

lemma ciedeDhp_self (a : Lab) : ciedeDhp a a = 0 := by
  unfold ciedeDhp
  have hh : ciedeH2p a a = ciedeH1p a a := rfl
  by_cases hC : ciedeC1p a a * ciedeC2p a a = 0
  · simp [hC]
  · simp [hC, hh, sub_self]

lemma ciedeDHp_self (a : Lab) : ciedeDHp a a = 0 := by
  unfold ciedeDHp
  rw [ciedeDhp_self]
  simp

lemma ciede2000Distance_self (a : Lab) : ciede2000Distance a a = 0 := by
  simp only [ciede2000Distance]
  have hC : ciedeC2p a a = ciedeC1p a a := rfl
  rw [hC, ciedeDHp_self, sub_self, sub_self]
  simp

lemma ciede2000Distance_nonneg (a b : Lab) : 0 ≤ ciede2000Distance a b := by
  simp only [ciede2000Distance]
  exact Real.sqrt_nonneg _

lemma jzazbzDistance_comm (a b : JzC) : jzazbzDistance a b = jzazbzDistance b a := by
  simp only [jzazbzDistance]
  congr 1
  ring_nf

lemma jzazbzDistance_self (a : JzC) : jzazbzDistance a a = 0 := by
  simp [jzazbzDistance, sub_self]

lemma jzazbzDistance_nonneg (a b : JzC) : 0 ≤ jzazbzDistance a b := by
  simp only [jzazbzDistance]
  exact Real.sqrt_nonneg _

/-- C5: every selectable distance metric — OKLab weighted, OKLab
calibrated (HK), CIEDE2000, and Jzazbz — is symmetric, returns exactly 0 on
identical inputs, and always returns a non-negative real. -/
theorem distance_metrics_symmetric_zero_nonneg :
    (∀ (a b : Lab) (e : Bool),
        oklabDistance a b e = oklabDistance b a e ∧
        oklabDistance a a e = 0 ∧ 0 ≤ oklabDistance a b e) ∧
    (∀ a b : Lab,
        oklabDistanceCalibrated a b = oklabDistanceCalibrated b a ∧
        oklabDistanceCalibrated a a = 0 ∧ 0 ≤ oklabDistanceCalibrated a b) ∧
    (∀ a b : Lab,
        ciede2000Distance a b = ciede2000Distance b a ∧
        ciede2000Distance a a = 0 ∧ 0 ≤ ciede2000Distance a b) ∧
    (∀ a b : JzC,
        jzazbzDistance a b = jzazbzDistance b a ∧
        jzazbzDistance a a = 0 ∧ 0 ≤ jzazbzDistance a b) :=
  ⟨fun a b e => ⟨oklabDistance_comm a b e, oklabDistance_self a e,
      oklabDistance_nonneg a b e⟩,
   fun a b => ⟨oklabDistanceCalibrated_comm a b, oklabDistanceCalibrated_self a,
      oklabDistanceCalibrated_nonneg a b⟩,
   fun a b => ⟨ciede2000Distance_comm a b, ciede2000Distance_self a,
      ciede2000Distance_nonneg a b⟩,
   fun a b => ⟨jzazbzDistance_comm a b, jzazbzDistance_self a,
      jzazbzDistance_nonneg a b⟩⟩

lemma jsRound_natCast (v : ℕ) : jsRound ((v : ℕ) : ℝ) = (v : ℤ) := by
  unfold jsRound
  rw [Int.floor_eq_iff]
  constructor
  · push_cast
    linarith
  · push_cast
    linarith

/-- The sRGB→linear→sRGB round trip is in fact exact on every 8-bit value:
both branch pairs of the piecewise gamma agree on the grid points, and the
power branch inverts algebraically before rounding. -/
lemma srgb_roundtrip_exact (v : ℕ) (hv : v ≤ 255) :
    linear01ToSrgb8 (srgb8ToLinear01 ((v : ℕ) : ℝ)) = (v : ℤ) := by
  have hvle : ((v : ℕ) : ℝ) ≤ 255 := by exact_mod_cast hv
  have hv0 : (0 : ℝ) ≤ ((v : ℕ) : ℝ) := by positivity
  by_cases hsmall : v ≤ 10
  · have hv10 : ((v : ℕ) : ℝ) ≤ 10 := by exact_mod_cast hsmall
    have hb : ((v : ℕ) : ℝ) / 255 ≤ 0.04045 := by linarith
    have hlin : srgb8ToLinear01 ((v : ℕ) : ℝ) = ((v : ℕ) : ℝ) / 255 / 12.92 := by
      simp only [srgb8ToLinear01, if_pos hb]
    have hb2 : ((v : ℕ) : ℝ) / 255 / 12.92 ≤ 0.0031308 := by
      rw [div_div, div_le_iff₀ (by norm_num : (0 : ℝ) < 255 * 12.92)]
      nlinarith
    rw [hlin]
    simp only [linear01ToSrgb8, if_pos hb2]
    have hc : 12.92 * (((v : ℕ) : ℝ) / 255 / 12.92) * 255 = ((v : ℕ) : ℝ) := by
      field_simp
      ring
    rw [hc, jsRound_natCast]
    omega
  · have h11 : (11 : ℝ) ≤ ((v : ℕ) : ℝ) := by
      have : 11 ≤ v := by omega
      exact_mod_cast this
    have hb : ¬ ((v : ℕ) : ℝ) / 255 ≤ 0.04045 := by
      push_neg
      linarith
    have hlin : srgb8ToLinear01 ((v : ℕ) : ℝ) =
        ((((v : ℕ) : ℝ) / 255 + 0.055) / 1.055) ^ (2.4 : ℝ) := by
      simp only [srgb8ToLinear01, if_neg hb]
    set x : ℝ := (((v : ℕ) : ℝ) / 255 + 0.055) / 1.055 with hxdef
    have hx0 : 0 ≤ x := by positivity
    have hx11 : (1001 / 10761 : ℝ) ≤ x := by
      rw [hxdef]
      rw [div_le_div_iff₀ (by norm_num) (by norm_num)]
      linarith
    have hlow : (0.0031308 : ℝ) < (1001 / 10761 : ℝ) ^ (2.4 : ℝ) := by
      have h125 : ((1001 / 10761 : ℝ) ^ (2.4 : ℝ)) ^ (5 : ℕ) =
          (1001 / 10761 : ℝ) ^ (12 : ℕ) := by
        rw [← Real.rpow_natCast ((1001 / 10761 : ℝ) ^ (2.4 : ℝ)) 5,
          ← Real.rpow_mul (by norm_num)]
        rw [show (2.4 : ℝ) * ((5 : ℕ) : ℝ) = ((12 : ℕ) : ℝ) by push_cast; norm_num]
        rw [Real.rpow_natCast]
      have hb5 : (0.0031308 : ℝ) ^ (5 : ℕ) <
          ((1001 / 10761 : ℝ) ^ (2.4 : ℝ)) ^ (5 : ℕ) := by
        rw [h125]
        norm_num
      exact lt_of_pow_lt_pow_left₀ 5 (Real.rpow_nonneg (by norm_num) _) hb5
    have hpow : (0.0031308 : ℝ) < x ^ (2.4 : ℝ) :=
      lt_of_lt_of_le hlow (Real.rpow_le_rpow (by norm_num) hx11 (by norm_num))
    have hbr : ¬ x ^ (2.4 : ℝ) ≤ 0.0031308 := not_le.mpr hpow
    rw [hlin]
    simp only [linear01ToSrgb8, if_neg hbr]
    have hxx : (x ^ (2.4 : ℝ)) ^ ((1 : ℝ) / 2.4) = x := by
      rw [← Real.rpow_mul hx0]
      rw [show (2.4 : ℝ) * (1 / 2.4) = 1 by norm_num, Real.rpow_one]
    rw [hxx]
    have hc : (1.055 * x - 0.055) * 255 = ((v : ℕ) : ℝ) := by
      rw [hxdef]
      field_simp
      ring
    rw [hc, jsRound_natCast]
    omega

/-- C9: for every 8-bit value `v`, converting to linear and back,
`linear01ToSrgb8 (srgb8ToLinear01 v)`, reproduces `v` up to ±1 of rounding
error. -/
theorem gamma_roundtrip_pm1 (v : ℕ) (hv : v ≤ 255) :
    |linear01ToSrgb8 (srgb8ToLinear01 ((v : ℕ) : ℝ)) - (v : ℤ)| ≤ 1 := by
  rw [srgb_roundtrip_exact v hv]
  simp

/-- Witness for C9 at the concrete 8-bit value 128. -/
theorem gamma_roundtrip_pm1_witness :
    (128 : ℕ) ≤ 255 ∧
      |linear01ToSrgb8 (srgb8ToLinear01 ((128 : ℕ) : ℝ)) - ((128 : ℕ) : ℤ)| ≤ 1 :=
  ⟨by norm_num, gamma_roundtrip_pm1 128 (by norm_num)⟩

/-- C2: constructing the converter with `charBudget = 0` (unlimited budget)
leaves every requested target dimension unchanged:
`adjustDimensionsForBudget` performs no downscaling. -/
theorem charBudget_zero_no_downscale (es : List Emoji) (o : OptionsIn)
    (w h : ℕ) (hB : o.charBudget = some 0) :
    adjustDimensionsForBudget (mkConverter es o).options w h = (w, h) := by
  have hb : (mkConverter es o).options.charBudget = 0 := by
    simp [mkConverter, mergeOptions, hB]
  simp [adjustDimensionsForBudget, hb]

/-- Witness for C2: a converter built with `charBudget = 0` keeps 50×40. -/
theorem charBudget_zero_no_downscale_witness :
    ({ emptyOptionsIn with charBudget := some 0 } : OptionsIn).charBudget
        = some 0 ∧
      adjustDimensionsForBudget
        (mkConverter [] { emptyOptionsIn with charBudget := some 0 }).options
        50 40 = (50, 40) :=
  ⟨rfl, charBudget_zero_no_downscale [] _ 50 40 rfl⟩

/-- Counterexample to C4 as stated: with the default budget (4000), a
requested 3×3 grid fits the budget and is returned unchanged — dimensions
below the minimum side length 5 are NOT raised to the floor. -/
theorem small_dims_not_raised_counterexample :
    adjustDimensionsForBudget (mkConverter [] emptyOptionsIn).options 3 3
        = (3, 3) ∧
      3 < minDimension := by
  constructor
  · have hb : (mkConverter [] emptyOptionsIn).options.charBudget = 4000 := rfl
    have h1 : ¬ ((4000 : ℚ) = 0) := by norm_num
    have h2 : ((3 * 3 : ℕ) : ℤ) ≤ ⌊(4000 : ℚ) / avgEmojiLength⌋ := by
      rw [Int.le_floor]
      norm_num [avgEmojiLength]
    simp only [adjustDimensionsForBudget, hb, if_neg h1]
    rw [if_pos h2]
  · norm_num [minDimension]

/-- C4 (amended): `adjustDimensionsForBudget` either returns the requested
dimensions unchanged (no raising of sub-minimum requests), or — exactly when
budget-driven downscaling occurs — returns dimensions clamped to at least the
minimum side length 5 on each side. -/
theorem adjust_dims_unchanged_or_floored (opts : Options) (w h : ℕ) :
    adjustDimensionsForBudget opts w h = (w, h) ∨
      (minDimension ≤ (adjustDimensionsForBudget opts w h).1 ∧
       minDimension ≤ (adjustDimensionsForBudget opts w h).2) := by
  simp only [adjustDimensionsForBudget]
  split_ifs
  · exact Or.inl rfl
  · exact Or.inl rfl
  · exact Or.inr ⟨le_max_left _ _, le_max_left _ _⟩

lemma finalSearchRadius_nonneg (cv : Converter) (q : Rgb) :
    0 ≤ finalSearchRadius cv q := by
  unfold finalSearchRadius
  cases cv.colorIndex with
  | none => norm_num
  | some m =>
    dsimp only
    split_ifs <;> norm_num

lemma mem_pushToBucket_of_mem (m : BucketMap) (e : Emoji) (rgb : Rgb)
    (k : ℤ × ℤ × ℤ) (x : Emoji) (hx : x ∈ m k) :
    x ∈ pushToBucket m e rgb k := by
  simp only [pushToBucket]
  split_ifs with hk hl
  · exact hk ▸ hx
  · exact List.mem_append_left _ (hk ▸ hx)
  · exact hx

lemma mem_of_getLastEq {α : Type} {l : List α} {x : α}
    (h : l.getLast? = some x) : x ∈ l := by
  obtain ⟨hne, heq⟩ := List.mem_getLast?_eq_getLast (Option.mem_def.mpr h)
  rw [heq]
  exact List.getLast_mem hne

lemma self_mem_pushToBucket (m : BucketMap) (e : Emoji) (rgb : Rgb) :
    e ∈ pushToBucket m e rgb (bucketKey rgb) := by
  by_cases hl : (m (bucketKey rgb)).getLast? = some e
  · simp only [pushToBucket, if_pos rfl, if_pos hl]
    exact mem_of_getLastEq hl
  · simp only [pushToBucket, if_pos rfl, if_neg hl]
    exact List.mem_append_right _ (List.mem_singleton_self e)

lemma mem_profileFold_of_mem (e : Emoji) (l : List ProfileEntry)
    (m : BucketMap) (k : ℤ × ℤ × ℤ) (x : Emoji) (hx : x ∈ m k) :
    x ∈ (l.foldl (fun acc p => pushToBucket acc e p.rgb) m) k := by
  induction l generalizing m with
  | nil => exact hx
  | cons p rest ih =>
    exact ih _ (mem_pushToBucket_of_mem m e p.rgb k x hx)

lemma mem_pushEmoji_of_mem (m : BucketMap) (e : Emoji) (k : ℤ × ℤ × ℤ)
    (x : Emoji) (hx : x ∈ m k) : x ∈ pushEmoji m e k := by
  unfold pushEmoji
  cases hc : e.color with
  | none => exact hx
  | some c =>
    apply mem_profileFold_of_mem
    cases ha : e.accentColor with
    | none => exact mem_pushToBucket_of_mem _ _ _ _ _ hx
    | some ac =>
      exact mem_pushToBucket_of_mem _ _ _ _ _
        (mem_pushToBucket_of_mem _ _ _ _ _ hx)

lemma self_mem_pushEmoji (m : BucketMap) (e : Emoji) (c : Rgb)
    (hc : e.color = some c) : e ∈ pushEmoji m e (bucketKey c) := by
  unfold pushEmoji
  rw [hc]
  apply mem_profileFold_of_mem
  cases ha : e.accentColor with
  | none => exact self_mem_pushToBucket m e c
  | some ac =>
    exact mem_pushToBucket_of_mem _ _ _ _ _ (self_mem_pushToBucket m e c)

lemma mem_indexFold_of_mem (es : List Emoji) (m : BucketMap)
    (k : ℤ × ℤ × ℤ) (x : Emoji) (hx : x ∈ m k) :
    x ∈ (es.foldl pushEmoji m) k := by
  induction es generalizing m with
  | nil => exact hx
  | cons e rest ih => exact ih _ (mem_pushEmoji_of_mem m e k x hx)

lemma mem_builtIndex (es : List Emoji) (e : Emoji) (c : Rgb)
    (he : e ∈ es) (hc : e.color = some c) (m : BucketMap)
    (hm : buildColorIndex es = some m) : e ∈ m (bucketKey c) := by
  unfold buildColorIndex at hm
  split_ifs at hm with hlen
  injection hm with hm'
  subst hm'
  obtain ⟨l1, l2, rfl⟩ := List.append_of_mem he
  rw [List.foldl_append, List.foldl_cons]
  exact mem_indexFold_of_mem l2 _ _ e
    (self_mem_pushEmoji (l1.foldl pushEmoji fun _ => []) e c hc)

lemma mem_intRange (r z : ℤ) (h1 : -r ≤ z) (h2 : z ≤ r) : z ∈ intRange r := by
  have hlt : (z + r).toNat < 2 * r.toNat + 1 := by omega
  have hz : z = (((z + r).toNat : ℕ) : ℤ) - r := by omega
  rw [hz, intRange]
  exact List.mem_map_of_mem _ (List.mem_range.mpr hlt)

lemma mem_collectBuckets (m : BucketMap) (k k' : ℤ × ℤ × ℤ) (r : ℤ)
    (x : Emoji) (hx : x ∈ m k')
    (h1 : |k'.1 - k.1| ≤ r) (h2 : |k'.2.1 - k.2.1| ≤ r)
    (h3 : |k'.2.2 - k.2.2| ≤ r) : x ∈ collectBuckets m k r := by
  simp only [collectBuckets, List.mem_flatMap]
  refine ⟨k'.1 - k.1, mem_intRange r _ ?_ ?_,
    k'.2.1 - k.2.1, mem_intRange r _ ?_ ?_,
    k'.2.2 - k.2.2, mem_intRange r _ ?_ ?_, ?_⟩
  · exact neg_le_of_abs_le h1
  · exact le_of_abs_le h1
  · exact neg_le_of_abs_le h2
  · exact le_of_abs_le h2
  · exact neg_le_of_abs_le h3
  · exact le_of_abs_le h3
  · have hk : (k.1 + (k'.1 - k.1), k.2.1 + (k'.2.1 - k.2.1),
        k.2.2 + (k'.2.2 - k.2.2)) = k' := by
      refine Prod.ext (by ring) (Prod.ext (by ring) (by ring))
    rw [hk]
    exact hx

/-- C3: for every query against a palette large enough that the spatial index
is built, the candidate set returned by the index lookup contains every
entry — in particular the brute-force nearest one — whose mean-colour bucket
key lies within the final search radius (1, widened to 2 when the 27-bucket
pass found fewer than 200 candidates) of the query's bucket key. -/
theorem index_candidates_complete (es : List Emoji) (o : OptionsIn) (q : Rgb)
    (e : Emoji) (c : Rgb) (hlen : 1000 ≤ es.length) (he : e ∈ es)
    (hc : e.color = some c)
    (hr : chebyshevKeyDist (bucketKey c) (bucketKey q)
        ≤ finalSearchRadius (mkConverter es o) q) :
    e ∈ getCandidateEmojis (mkConverter es o) q := by
  have hidx : (mkConverter es o).colorIndex
      = some (es.foldl pushEmoji (fun _ => [])) := by
    simp only [mkConverter, buildColorIndex]
    rw [if_neg (by omega)]
  set m := es.foldl pushEmoji (fun _ => []) with hmdef
  have hbucket : e ∈ m (bucketKey c) := by
    apply mem_builtIndex es e c he hc
    unfold buildColorIndex
    rw [if_neg (by omega)]
  have habs : ∀ r : ℤ, chebyshevKeyDist (bucketKey c) (bucketKey q) ≤ r →
      e ∈ collectBuckets m (bucketKey q) r := by
    intro r hle
    unfold chebyshevKeyDist at hle
    exact mem_collectBuckets m (bucketKey q) (bucketKey c) r e hbucket
      (le_trans (le_max_left _ _) hle)
      (le_trans (le_trans (le_max_left _ _) (le_max_right _ _)) hle)
      (le_trans (le_trans (le_max_right _ _) (le_max_right _ _)) hle)
  have hrad : finalSearchRadius (mkConverter es o) q =
      if (collectBuckets m (bucketKey q) 1).length < 200 then 2 else 1 := by
    unfold finalSearchRadius
    rw [hidx]
  simp only [getCandidateEmojis, hidx]
  by_cases h200 : (collectBuckets m (bucketKey q) 1).length < 200
  · have hmem : e ∈ collectBuckets m (bucketKey q) 1 ++
        collectBuckets m (bucketKey q) 2 := by
      apply List.mem_append_right
      apply habs 2
      rw [hrad, if_pos h200] at hr
      exact hr
    rw [if_pos h200, if_pos (List.length_pos_of_mem hmem)]
    exact hmem
  · have hmem : e ∈ collectBuckets m (bucketKey q) 1 := by
      apply habs 1
      rw [hrad, if_neg h200] at hr
      exact hr
    rw [if_neg h200, if_pos (List.length_pos_of_mem hmem)]
    exact hmem

lemma bufGridSum_addErrAt (buf : ErrorBuffer) (w h : ℕ) (py px : ℤ)
    (f : LinRgb → ℝ) (hf : ∀ a b, f (addLin a b) = f a + f b)
    (hpy0 : 0 ≤ py) (hpyh : py < (h : ℤ)) (hpx0 : 0 ≤ px)
    (hpxw : px < (w : ℤ)) (v : LinRgb) :
    bufGridSum (addErrAt buf (py, px) v) w h f = bufGridSum buf w h f + f v := by
  classical
  have hp0 : (py.toNat, px.toNat) ∈ Finset.range h ×ˢ Finset.range w := by
    simp only [Finset.mem_product, Finset.mem_range]
    omega
  unfold bufGridSum
  rw [← Finset.add_sum_erase _ _ hp0, ← Finset.add_sum_erase _
    (fun p => f (buf ((p.1 : ℤ), (p.2 : ℤ)))) hp0]
  have hcast : ((py.toNat : ℤ), (px.toNat : ℤ)) = (py, px) := by
    simp only [Prod.mk.injEq]
    omega
  have hsame : ∀ p ∈ (Finset.range h ×ˢ Finset.range w).erase
      (py.toNat, px.toNat),
      f (addErrAt buf (py, px) v ((p.1 : ℤ), (p.2 : ℤ)))
        = f (buf ((p.1 : ℤ), (p.2 : ℤ))) := by
    intro p hp
    have hne : p ≠ (py.toNat, px.toNat) := (Finset.mem_erase.mp hp).1
    unfold addErrAt
    rw [if_neg]
    intro hcontra
    apply hne
    have h1 : (p.1 : ℤ) = py := congrArg Prod.fst hcontra
    have h2 : (p.2 : ℤ) = px := congrArg Prod.snd hcontra
    have : p.1 = py.toNat := by omega
    have : p.2 = px.toNat := by omega
    exact Prod.ext (by omega) (by omega)
  rw [Finset.sum_congr rfl hsame]
  have hupd : addErrAt buf (py, px) v
      ((py.toNat : ℤ), (px.toNat : ℤ)) = addLin (buf (py, px)) v := by
    unfold addErrAt
    rw [hcast, if_pos rfl]
  rw [hupd, hcast, hf]
  ring

/-- C6: at an interior cell (all four forward neighbors inside the grid),
Floyd–Steinberg diffusion adds exactly the scaled residual `err` to the
error buffer as a whole — the 7/16 + 3/16 + 5/16 + 1/16 shares account for
all of it, and no error is dropped. -/
theorem fs_interior_error_conserved (buf : ErrorBuffer) (w h : ℕ)
    (x y : ℤ) (serp : Bool) (err : LinRgb)
    (hy0 : 0 ≤ y) (hy : y + 1 < (h : ℤ))
    (hxr0 : 0 ≤ x + (if serp then (-1 : ℤ) else 1))
    (hxrw : x + (if serp then (-1 : ℤ) else 1) < (w : ℤ))
    (hxl0 : 0 ≤ x + (if serp then (1 : ℤ) else -1))
    (hxlw : x + (if serp then (1 : ℤ) else -1) < (w : ℤ))
    (hx0 : 0 ≤ x) (hxw : x < (w : ℤ)) :
    bufGridSum (diffuseError buf w h x y serp err) w h (fun v => v.r)
        = bufGridSum buf w h (fun v => v.r) + err.r ∧
      bufGridSum (diffuseError buf w h x y serp err) w h (fun v => v.g)
        = bufGridSum buf w h (fun v => v.g) + err.g ∧
      bufGridSum (diffuseError buf w h x y serp err) w h (fun v => v.b)
        = bufGridSum buf w h (fun v => v.b) + err.b := by
  have hyh : y < (h : ℤ) := by omega
  refine ⟨?_, ?_, ?_⟩ <;>
  · simp only [diffuseError, if_pos (And.intro hxr0 hxrw),
      if_pos (And.intro hy (And.intro hxl0 hxlw)), if_pos hy,
      if_pos (And.intro hy (And.intro hxr0 hxrw))]
    rw [bufGridSum_addErrAt _ _ _ _ _ _ (by intro a b; simp [addLin]) (by omega)
        hy hxr0 hxrw,
      bufGridSum_addErrAt _ _ _ _ _ _ (by intro a b; simp [addLin]) (by omega)
        (by omega) hx0 hxw,
      bufGridSum_addErrAt _ _ _ _ _ _ (by intro a b; simp [addLin]) (by omega)
        (by omega) hxl0 hxlw,
      bufGridSum_addErrAt _ _ _ _ _ _ (by intro a b; simp [addLin]) hy0 hyh
        hxr0 hxrw]
    simp only [scaleLin]
    ring

/-- Witness for C6: a 3×3 grid, interior cell (1, 1), zero buffer, unit
residual. -/
theorem fs_interior_error_conserved_witness :
    bufGridSum (diffuseError (fun _ => zeroLin) 3 3 1 1 false ⟨1, 2, 3⟩) 3 3
        (fun v => v.r)
      = bufGridSum (fun _ => zeroLin) 3 3 (fun v => v.r) + (1 : ℝ) :=
  (fs_interior_error_conserved (fun _ => zeroLin) 3 3 1 1 false ⟨1, 2, 3⟩
    (by norm_num) (by norm_num) (by norm_num) (by norm_num) (by norm_num)
    (by norm_num) (by norm_num) (by norm_num)).1

lemma machineOutputs_length {σ α : Type} (f : ℕ → σ → α × σ)
    (xs : List ℕ) (st : σ) : (machineOutputs f xs st).length = xs.length := by
  induction xs generalizing st with
  | nil => rfl
  | cons x rest ih => simp [machineOutputs, ih]

lemma machine_foldl_append {σ α : Type} (f : ℕ → σ → α × σ)
    (xs : List ℕ) (acc : List α) (st : σ) :
    xs.foldl (fun a x => (a.1 ++ [(f x a.2).1], (f x a.2).2)) (acc, st)
      = (acc ++ machineOutputs f xs st, machineState f xs st) := by
  induction xs generalizing acc st with
  | nil => simp [machineOutputs, machineState]
  | cons x rest ih =>
    rw [List.foldl_cons]
    rw [ih]
    simp [machineOutputs, machineState]

lemma machine_foldl_cons {σ α : Type} (f : ℕ → σ → α × σ)
    (xs : List ℕ) (acc : List α) (st : σ) :
    xs.foldl (fun a x => ((f x a.2).1 :: a.1, (f x a.2).2)) (acc, st)
      = ((machineOutputs f xs st).reverse ++ acc, machineState f xs st) := by
  induction xs generalizing acc st with
  | nil => simp [machineOutputs, machineState]
  | cons x rest ih =>
    rw [List.foldl_cons]
    rw [ih]
    simp [machineOutputs, machineState]

lemma machineOutputs_getElem? {σ α : Type} (f : ℕ → σ → α × σ)
    (xs : List ℕ) (st : σ) (i : ℕ) :
    (machineOutputs f xs st)[i]?
      = (xs[i]?).map (fun x => (f x (machineState f (xs.take i) st)).1) := by
  induction xs generalizing st i with
  | nil => simp [machineOutputs]
  | cons x rest ih =>
    cases i with
    | zero => simp [machineOutputs, machineState]
    | succ n => simp [machineOutputs, machineState, ih]

lemma rowProc_eq (cv : Converter) (w h : ℕ) (pixels : ℕ → ℕ → Rgb)
    (y : ℕ) (st : RunState) :
    rowProc cv w h pixels y st =
      (if rowSerp cv y then
        (machineOutputs (cellProc cv w h pixels y) (rowOrder true w) st).reverse
       else machineOutputs (cellProc cv w h pixels y) (rowOrder false w) st,
       machineState (cellProc cv w h pixels y)
         (rowOrder (rowSerp cv y) w) st) := by
  cases hserp : rowSerp cv y with
  | false =>
    simp only [rowProc, hserp, if_false, Bool.false_eq_true]
    rw [machine_foldl_append (cellProc cv w h pixels y) (rowOrder false w) [] st]
    simp
  | true =>
    simp only [rowProc, hserp, if_true]
    rw [machine_foldl_cons (cellProc cv w h pixels y) (rowOrder true w) [] st]
    simp

lemma convertCore_eq (cv : Converter) (w h : ℕ) (pixels : ℕ → ℕ → Rgb) :
    convertCore cv w h pixels =
      (machineOutputs (rowProc cv w h pixels) (List.range h) initRunState,
       machineState (rowProc cv w h pixels) (List.range h) initRunState) := by
  unfold convertCore
  rw [machine_foldl_append (rowProc cv w h pixels) (List.range h) [] initRunState]
  simp

/-- C10: with dithering enabled, the ResultGrid stays aligned with the
PixelGrid despite the serpentine traversal — the entry stored at row `y`,
column `x` is exactly the one matched for pixel `(y, x)` at the point the
sequential loop processed that cell (odd rows are scanned right-to-left but
each result is inserted at the front of the row, so stored order is
independent of scan direction). -/
theorem serpentine_grid_alignment (cv : Converter) (w h : ℕ)
    (pixels : ℕ → ℕ → Rgb) (_hd : cv.options.dithering = true)
    (y x : ℕ) (hy : y < h) (hx : x < w) :
    ((convertCore cv w h pixels).1[y]?).bind (fun row => row[x]?)
      = some (matchedAtCell cv w h pixels y x) := by
  rw [convertCore_eq]
  rw [machineOutputs_getElem? (rowProc cv w h pixels) (List.range h)
    initRunState y]
  rw [List.getElem?_range hy]
  simp only [Option.map_some', Option.some_bind]
  rw [rowProc_eq]
  have hrs : machineState (rowProc cv w h pixels) (List.take y (List.range h))
      initRunState = rowStartState cv w h pixels y := rfl
  rw [hrs]
  unfold matchedAtCell
  cases hserp : rowSerp cv y with
  | false =>
    simp only [hserp, if_false, Bool.false_eq_true]
    rw [machineOutputs_getElem? (cellProc cv w h pixels y) (rowOrder false w)
      (rowStartState cv w h pixels y) x]
    simp only [rowOrder, Bool.false_eq_true, if_false]
    rw [List.getElem?_range hx]
    simp only [Option.map_some']
    rfl
  | true =>
    simp only [hserp, if_true]
    have hlen : (machineOutputs (cellProc cv w h pixels y) (rowOrder true w)
        (rowStartState cv w h pixels y)).length = w := by
      rw [machineOutputs_length]
      simp [rowOrder]
    have hxlen : x < (machineOutputs (cellProc cv w h pixels y)
        (rowOrder true w) (rowStartState cv w h pixels y)).length := by
      omega
    rw [List.getElem?_reverse hxlen]
    rw [hlen]
    rw [machineOutputs_getElem? (cellProc cv w h pixels y) (rowOrder true w)
      (rowStartState cv w h pixels y) (w - 1 - x)]
    have hidx : (rowOrder true w)[w - 1 - x]? = some x := by
      have hlt : w - 1 - x < (List.range w).length := by
        simp [List.length_range]
        omega
      simp only [rowOrder, if_true]
      rw [List.getElem?_reverse (by simpa using hlt)]
      rw [List.length_range]
      rw [List.getElem?_range (by omega)]
      congr 1
      omega
    rw [hidx]
    simp only [Option.map_some']
    rfl

/-- Witness for C10: a 1×1 dithering run with a singleton palette. -/
theorem serpentine_grid_alignment_witness :
    (((convertCore
        (mkConverter
          [{ name := "dot", color := some ⟨0, 0, 0⟩, accentColor := none
             colorProfile := [], variance := some 0, colorError := false }]
          emptyOptionsIn)
        1 1 (fun _ _ => ⟨0, 0, 0⟩)).1[0]?).bind (fun row => row[0]?))
      = some (matchedAtCell
          (mkConverter
            [{ name := "dot", color := some ⟨0, 0, 0⟩, accentColor := none
               colorProfile := [], variance := some 0, colorError := false }]
            emptyOptionsIn)
          1 1 (fun _ _ => ⟨0, 0, 0⟩) 0 0) :=
  serpentine_grid_alignment _ 1 1 _ rfl 0 0 (by norm_num) (by norm_num)

/-- C8: with an empty (or missing) palette, `convert` fails fast with the
distinct "no palette" error whatever the image-loading outcome — before any
image loading, rasterization, or matching — and returns no partial grid. -/
theorem empty_palette_fails_fast (cv : Converter) (hcv : cv.emojis = [])
    (loadResult : Except ConvertError ImageBitmap) :
    convert cv loadResult = Except.error ConvertError.noEmojis ∧
      ConvertError.noEmojis ≠ ConvertError.imageLoadFailed := by
  refine ⟨?_, by decide⟩
  simp [convert, hcv]

/-- Witness for C8: the empty-palette converter errors with the "no palette"
error even when image loading itself would have failed. -/
theorem empty_palette_fails_fast_witness :
    convert (mkConverter [] emptyOptionsIn)
        (Except.error ConvertError.imageLoadFailed)
      = Except.error ConvertError.noEmojis ∧
      ConvertError.noEmojis ≠ ConvertError.imageLoadFailed :=
  empty_palette_fails_fast (mkConverter [] emptyOptionsIn) rfl _

lemma matchStep_bestAllowed_cases (cv : Converter) (maxUses : WithTop ℤ)
    (used : Usage) (targetLab : Lab) (accentBias : ℚ) (st : MatchState)
    (e : Emoji) :
    (matchStep cv maxUses used targetLab accentBias st e).bestAllowed
        = st.bestAllowed ∨
      (∃ d, (matchStep cv maxUses used targetLab accentBias st e).bestAllowed
          = some (e, d) ∧ AllowedEntry maxUses used e) := by
  unfold matchStep
  cases hc : e.color with
  | none => exact Or.inl rfl
  | some c =>
    dsimp only
    set dist := candidateScore cv.options targetLab accentBias e c with hdist
    have hst1 : (if distBeats dist st.best
        then { st with best := some (e, dist) } else st).bestAllowed
          = st.bestAllowed := by
      split_ifs <;> rfl
    by_cases h100 : 100 ≤ cv.options.tolerance
    · rw [if_pos h100]
      exact Or.inl hst1
    · rw [if_neg h100]
      by_cases hcond : AllowedEntry maxUses used e ∧ distBeats dist
          (if distBeats dist st.best
            then { st with best := some (e, dist) } else st).bestAllowed
      · rw [if_pos hcond]
        exact Or.inr ⟨dist, rfl, hcond.1⟩
      · rw [if_neg hcond]
        exact Or.inl hst1

lemma matchStep_bestAllowed_isSome (cv : Converter) (maxUses : WithTop ℤ)
    (used : Usage) (targetLab : Lab) (accentBias : ℚ) (st : MatchState)
    (e : Emoji) (h : st.bestAllowed ≠ none) :
    (matchStep cv maxUses used targetLab accentBias st e).bestAllowed ≠ none := by
  rcases matchStep_bestAllowed_cases cv maxUses used targetLab accentBias st e
    with hcase | ⟨d, hcase, _⟩
  · rw [hcase]
    exact h
  · rw [hcase]
    simp

lemma matchStep_sets_bestAllowed (cv : Converter) (maxUses : WithTop ℤ)
    (used : Usage) (targetLab : Lab) (accentBias : ℚ) (st : MatchState)
    (e : Emoji) (htol : ¬ 100 ≤ cv.options.tolerance)
    (hcs : e.color.isSome) (ha : AllowedEntry maxUses used e) :
    (matchStep cv maxUses used targetLab accentBias st e).bestAllowed ≠ none := by
  obtain ⟨c, hc⟩ := Option.isSome_iff_exists.mp hcs
  unfold matchStep
  rw [hc]
  dsimp only
  rw [if_neg htol]
  set dist := candidateScore cv.options targetLab accentBias e c with hdist
  set st1 := if distBeats dist st.best
    then { st with best := some (e, dist) } else st with hst1
  by_cases hB : distBeats dist st1.bestAllowed
  · rw [if_pos ⟨ha, hB⟩]
    simp
  · rw [if_neg fun hand => hB hand.2]
    intro h0
    apply hB
    rw [h0]
    trivial

lemma matchFold_bestAllowed_good (cv : Converter) (maxUses : WithTop ℤ)
    (used : Usage) (targetLab : Lab) (accentBias : ℚ) (es0 : List Emoji)
    (l : List Emoji) :
    ∀ (st : MatchState),
      (∀ e ∈ l, e ∈ es0) →
      (∀ p, st.bestAllowed = some p → p.1 ∈ es0 ∧ AllowedEntry maxUses used p.1) →
      ∀ p, (l.foldl (matchStep cv maxUses used targetLab accentBias) st).bestAllowed
          = some p → p.1 ∈ es0 ∧ AllowedEntry maxUses used p.1 := by
  induction l with
  | nil => exact fun st _ hst p hp => hst p hp
  | cons e rest ih =>
    intro st hl hst p hp
    rw [List.foldl_cons] at hp
    refine ih _ (fun e' he' => hl e' (List.mem_cons_of_mem _ he')) ?_ p hp
    intro q hq
    rcases matchStep_bestAllowed_cases cv maxUses used targetLab accentBias st e
      with hcase | ⟨d, hcase, hall⟩
    · exact hst q (hcase ▸ hq)
    · rw [hcase] at hq
      injection hq with hq'
      rw [← hq']
      exact ⟨hl e (List.mem_cons_self e rest), hall⟩

lemma matchFold_bestAllowed_ne_none (cv : Converter) (maxUses : WithTop ℤ)
    (used : Usage) (targetLab : Lab) (accentBias : ℚ)
    (htol : ¬ 100 ≤ cv.options.tolerance) (l : List Emoji) :
    ∀ (st : MatchState),
      ((∃ e ∈ l, e.color.isSome ∧ AllowedEntry maxUses used e) ∨
        st.bestAllowed ≠ none) →
      (l.foldl (matchStep cv maxUses used targetLab accentBias) st).bestAllowed
        ≠ none := by
  induction l with
  | nil =>
    intro st h
    rcases h with ⟨e, he, _⟩ | h
    · exact absurd he (List.not_mem_nil e)
    · exact h
  | cons e rest ih =>
    intro st h
    rw [List.foldl_cons]
    apply ih
    rcases h with ⟨e', he', hprop⟩ | hsome
    · rcases List.mem_cons.mp he' with rfl | hmem
      · exact Or.inr (matchStep_sets_bestAllowed cv maxUses used targetLab
          accentBias st e' htol hprop.1 hprop.2)
      · exact Or.inl ⟨e', hmem, hprop⟩
    · exact Or.inr (matchStep_bestAllowed_isSome cv maxUses used targetLab
        accentBias st e hsome)

lemma findBestEmoji_spec (cv : Converter) (maxUses : WithTop ℤ) (used : Usage)
    (target : Rgb) (hidx : cv.colorIndex = none)
    (htol : ¬ 100 ≤ cv.options.tolerance)
    (hex : ∃ e ∈ cv.emojis, e.color.isSome ∧ AllowedEntry maxUses used e) :
    ∃ c, (findBestEmoji cv maxUses used target).1 = some c ∧
      c ∈ cv.emojis ∧ AllowedEntry maxUses used c ∧
      (findBestEmoji cv maxUses used target).2
        = fun n => if n = c.name then used n + 1 else used n := by
  have hcand : getCandidateEmojis cv target = cv.emojis := by
    unfold getCandidateEmojis
    rw [hidx]
  unfold findBestEmoji
  rw [hcand]
  dsimp only
  set tLab := oklabOf target with htLab
  set aBias : ℚ := if 90 < 255 - (target.r : ℤ) + (255 - (target.g : ℤ))
      + (255 - (target.b : ℤ)) then 0.85 else 1.05 with haBias
  set stF := cv.emojis.foldl (matchStep cv maxUses used tLab aBias)
    ⟨none, none⟩ with hstF
  have hne : stF.bestAllowed ≠ none := by
    rw [hstF]
    exact matchFold_bestAllowed_ne_none cv maxUses used tLab aBias htol
      cv.emojis ⟨none, none⟩ (Or.inl hex)
  obtain ⟨p, hp⟩ := Option.ne_none_iff_exists'.mp hne
  have hgood : p.1 ∈ cv.emojis ∧ AllowedEntry maxUses used p.1 := by
    refine matchFold_bestAllowed_good cv maxUses used tLab aBias cv.emojis
      cv.emojis ⟨none, none⟩ (fun _ hh => hh) ?_ p (hstF ▸ hp)
    intro q hq
    exact absurd hq (by simp)
  rw [if_neg htol, hp]
  exact ⟨p.1, rfl, hgood.1, hgood.2, rfl⟩

lemma processCell_spec (cv : Converter) (maxUses : WithTop ℤ) (w h : ℕ)
    (pixels : ℕ → ℕ → Rgb) (bs : ℝ) (dith : Bool)
    (lv : Option (ℕ → ℕ → ℝ × ℝ)) (serp : Bool) (y x : ℕ) (st : RunState)
    (hidx : cv.colorIndex = none) (htol : ¬ 100 ≤ cv.options.tolerance)
    (hex : ∃ e ∈ cv.emojis, e.color.isSome ∧ AllowedEntry maxUses st.used e) :
    ∃ c, (processCell cv maxUses w h pixels bs dith lv serp y x st).1 = some c ∧
      c ∈ cv.emojis ∧ AllowedEntry maxUses st.used c ∧
      (processCell cv maxUses w h pixels bs dith lv serp y x st).2.used
        = fun n => if n = c.name then st.used n + 1 else st.used n := by
  unfold processCell
  cases dith with
  | false =>
    simp only [Bool.false_eq_true, if_false]
    obtain ⟨c, h1, h2, h3, h4⟩ :=
      findBestEmoji_spec cv maxUses st.used (pixels y x) hidx htol hex
    exact ⟨c, h1, h2, h3, h4⟩
  | true =>
    simp only [if_true]
    unfold findBestEmojiFromLinear
    obtain ⟨c, h1, h2, h3, h4⟩ := findBestEmoji_spec cv maxUses st.used
      (linearToRgb8Color (clampLinear (addLin (rgb8ToLinear (pixels y x))
        (st.err ((y : ℤ), (x : ℤ)))))) hidx htol hex
    rw [h1]
    dsimp only
    cases hcc : c.color with
    | none => exact ⟨c, rfl, h2, h3, h4⟩
    | some cc => exact ⟨c, rfl, h2, h3, h4⟩

lemma countP_bump_le (used : Usage) (name : String) :
    ∀ (es : List Emoji), (es.map Emoji.name).Nodup →
    es.countP (fun e => decide (1 ≤
        (if e.name = name then used e.name + 1 else used e.name)))
      ≤ es.countP (fun e => decide (1 ≤ used e.name)) + 1 := by
  intro es
  induction es with
  | nil => intro _; simp
  | cons e0 rest ih =>
    intro hnodup
    have hnodup' := hnodup
    rw [List.map_cons, List.nodup_cons] at hnodup'
    by_cases hname : e0.name = name
    · have hrest : ∀ e ∈ rest, e.name ≠ name := by
        intro e he hcontra
        apply hnodup'.1
        rw [hname, ← hcontra]
        exact List.mem_map_of_mem Emoji.name he
      have hsame : rest.countP (fun e => decide (1 ≤
          (if e.name = name then used e.name + 1 else used e.name)))
          = rest.countP (fun e => decide (1 ≤ used e.name)) := by
        apply List.countP_congr
        intro e he
        rw [if_neg (hrest e he)]
      rw [List.countP_cons, List.countP_cons, hsame]
      by_cases h1 : decide (1 ≤ used e0.name) = true
      · simp only [h1]
        split_ifs <;> omega
      · simp only [h1]
        split_ifs <;> omega
    · rw [List.countP_cons, List.countP_cons, if_neg hname]
      have := ih hnodup'.2
      split_ifs <;> omega

lemma usage_step (es : List Emoji) (used : Usage) (c : Emoji) (k : ℕ)
    (hnames : (es.map Emoji.name).Nodup) (_hc : c ∈ es)
    (hal : AllowedEntry ((1 : ℤ) : WithTop ℤ) used c)
    (hinv : UsageInv es k used) :
    UsageInv es (k + 1) (fun n => if n = c.name then used n + 1 else used n) := by
  constructor
  · intro n hn
    show (if n = c.name then used n + 1 else used n) ≤ 1
    by_cases hsame : n = c.name
    · rw [if_pos hsame]
      rcases hal with hexm | hlt
      · rw [hsame] at hn
        rw [hn] at hexm
        exact absurd hexm (by simp)
      · rw [hsame]
        have hz : used c.name < 1 := by exact_mod_cast hlt
        omega
    · rw [if_neg hsame]
      exact hinv.1 n hn
  · calc es.countP (fun e => decide (1 ≤
          (if e.name = c.name then used e.name + 1 else used e.name)))
        ≤ es.countP (fun e => decide (1 ≤ used e.name)) + 1 :=
          countP_bump_le used c.name es hnames
      _ ≤ k + 1 := by
          have := hinv.2
          omega

lemma fresh_entry_exists (es : List Emoji) (used : Usage) (k : ℕ)
    (hcol : ∀ e ∈ es, e.color.isSome) (hk : k < es.length)
    (hinv : UsageInv es k used) :
    ∃ e ∈ es, e.color.isSome ∧ AllowedEntry ((1 : ℤ) : WithTop ℤ) used e := by
  have hlt : es.countP (fun e => decide (1 ≤ used e.name)) < es.length := by
    have := hinv.2
    omega
  have hne : ¬ ∀ e ∈ es, decide (1 ≤ used e.name) = true := by
    intro hall
    rw [List.countP_eq_length.mpr hall] at hlt
    omega
  push_neg at hne
  obtain ⟨e, he, hforall⟩ := hne
  refine ⟨e, he, hcol e he, Or.inr ?_⟩
  have : used e.name = 0 := by
    by_contra h0
    exact hforall (by simp; omega)
  rw [this]
  exact_mod_cast Int.zero_lt_one

lemma name_inj_of_nodup (es : List Emoji)
    (hnames : (es.map Emoji.name).Nodup) {a b : Emoji}
    (ha : a ∈ es) (hb : b ∈ es) (hne : a ≠ b) : a.name ≠ b.name := by
  intro hcontra
  exact hne (List.inj_on_of_nodup_map hnames ha hb hcontra)

lemma rowOrder_length (serp : Bool) (w : ℕ) : (rowOrder serp w).length = w := by
  cases serp <;> simp [rowOrder]

lemma row_usage_inv (cv : Converter) (w h : ℕ) (pixels : ℕ → ℕ → Rgb)
    (y : ℕ) (hidx : cv.colorIndex = none)
    (htol : ¬ 100 ≤ cv.options.tolerance)
    (hm1 : runMaxUses cv w h = ((1 : ℤ) : WithTop ℤ))
    (hnames : (cv.emojis.map Emoji.name).Nodup)
    (hcol : ∀ e ∈ cv.emojis, e.color.isSome) (xs : List ℕ) :
    ∀ (st : RunState) (k : ℕ),
      UsageInv cv.emojis k st.used →
      k + xs.length ≤ cv.emojis.length →
      UsageInv cv.emojis (k + xs.length)
          (machineState (cellProc cv w h pixels y) xs st).used ∧
      ∀ e ∈ cv.emojis,
        (machineOutputs (cellProc cv w h pixels y) xs st).count (some e)
            + st.used e.name
          ≤ (machineState (cellProc cv w h pixels y) xs st).used e.name := by
  induction xs with
  | nil =>
    intro st k hinv _
    refine ⟨by simpa using hinv, ?_⟩
    intro e _
    simp [machineOutputs, machineState]
  | cons x rest ih =>
    intro st k hinv hbound
    have hk : k < cv.emojis.length := by
      simp only [List.length_cons] at hbound
      omega
    obtain ⟨e0, he0, hc0, ha0⟩ :=
      fresh_entry_exists cv.emojis st.used k hcol hk hinv
    have hex : ∃ e' ∈ cv.emojis, e'.color.isSome ∧
        AllowedEntry (runMaxUses cv w h) st.used e' :=
      ⟨e0, he0, hc0, hm1 ▸ ha0⟩
    obtain ⟨c, hc1, hc2, hc3, hc4⟩ := processCell_spec cv (runMaxUses cv w h)
      w h pixels (runBaseStrength cv) cv.options.dithering
      (runLocalVariance cv w h pixels) (rowSerp cv y) y x st hidx htol hex
    rw [hm1] at hc3
    have hcell1 : (cellProc cv w h pixels y x st).1 = some c := hc1
    have hcell4 : (cellProc cv w h pixels y x st).2.used
        = fun n => if n = c.name then st.used n + 1 else st.used n := hc4
    have hinv' : UsageInv cv.emojis (k + 1)
        (cellProc cv w h pixels y x st).2.used := by
      rw [hcell4]
      exact usage_step cv.emojis st.used c k hnames hc2 hc3 hinv
    have hb' : (k + 1) + rest.length ≤ cv.emojis.length := by
      simp only [List.length_cons] at hbound
      omega
    obtain ⟨hinvF, hcount⟩ := ih ((cellProc cv w h pixels y x st).2) (k + 1)
      hinv' hb'
    constructor
    · have harith : k + (x :: rest).length = (k + 1) + rest.length := by
        simp only [List.length_cons]
        omega
      rw [harith]
      exact hinvF
    · intro e he
      have houts : machineOutputs (cellProc cv w h pixels y) (x :: rest) st
          = (cellProc cv w h pixels y x st).1 ::
            machineOutputs (cellProc cv w h pixels y) rest
              ((cellProc cv w h pixels y x st).2) := rfl
      have hstate : machineState (cellProc cv w h pixels y) (x :: rest) st
          = machineState (cellProc cv w h pixels y) rest
              ((cellProc cv w h pixels y x st).2) := rfl
      rw [houts, hstate, hcell1, List.count_cons]
      have hlink := hcount e he
      have hused' : (cellProc cv w h pixels y x st).2.used e.name
          = if e.name = c.name then st.used e.name + 1 else st.used e.name := by
        rw [hcell4]
      by_cases hec : e = c
      · rw [hec]
        rw [hec] at hlink hused'
        rw [if_pos rfl] at hused'
        simp only [beq_self_eq_true, if_pos]
        omega
      · have hnec : e.name ≠ c.name :=
          name_inj_of_nodup cv.emojis hnames he hc2 hec
        rw [if_neg hnec] at hused'
        have hbeq : ((some c == some e) = true) ↔ c = e := by
          simp
        rw [if_neg (by simp [hbeq]; exact fun hc' => hec hc'.symm)]
        omega

lemma grid_usage_inv (cv : Converter) (w h : ℕ) (pixels : ℕ → ℕ → Rgb)
    (hidx : cv.colorIndex = none) (htol : ¬ 100 ≤ cv.options.tolerance)
    (hm1 : runMaxUses cv w h = ((1 : ℤ) : WithTop ℤ))
    (hnames : (cv.emojis.map Emoji.name).Nodup)
    (hcol : ∀ e ∈ cv.emojis, e.color.isSome) (ys : List ℕ) :
    ∀ (st : RunState) (k : ℕ),
      UsageInv cv.emojis k st.used →
      k + ys.length * w ≤ cv.emojis.length →
      UsageInv cv.emojis (k + ys.length * w)
          (machineState (rowProc cv w h pixels) ys st).used ∧
      ∀ e ∈ cv.emojis,
        ((machineOutputs (rowProc cv w h pixels) ys st).map
            (fun row => row.count (some e))).sum + st.used e.name
          ≤ (machineState (rowProc cv w h pixels) ys st).used e.name := by
  induction ys with
  | nil =>
    intro st k hinv _
    refine ⟨by simpa using hinv, ?_⟩
    intro e _
    simp [machineOutputs, machineState]
  | cons y rest ih =>
    intro st k hinv hbound
    have hlen1 : (y :: rest).length * w = w + rest.length * w := by
      simp only [List.length_cons]
      ring
    rw [hlen1] at hbound
    have hrowbound : k + w ≤ cv.emojis.length := by
      linarith [Nat.zero_le (rest.length * w)]
    have hrw : k + (rowOrder (rowSerp cv y) w).length ≤ cv.emojis.length := by
      rw [rowOrder_length]
      exact hrowbound
    obtain ⟨hinvR, hcountR⟩ := row_usage_inv cv w h pixels y hidx htol hm1
      hnames hcol (rowOrder (rowSerp cv y) w) st k hinv hrw
    rw [rowOrder_length] at hinvR
    have hst' : (rowProc cv w h pixels y st).2
        = machineState (cellProc cv w h pixels y)
            (rowOrder (rowSerp cv y) w) st := by
      rw [rowProc_eq]
    have hrowcount : ∀ e ∈ cv.emojis,
        (rowProc cv w h pixels y st).1.count (some e)
          = (machineOutputs (cellProc cv w h pixels y)
              (rowOrder (rowSerp cv y) w) st).count (some e) := by
      intro e _
      rw [rowProc_eq]
      cases hserp : rowSerp cv y with
      | false => simp
      | true => simp [List.count_reverse]
    have hb2 : (k + w) + rest.length * w ≤ cv.emojis.length := by
      linarith [Nat.zero_le (rest.length * w)]
    obtain ⟨hinvF, hcountF⟩ := ih ((rowProc cv w h pixels y st).2) (k + w)
      (hst' ▸ hinvR) hb2
    constructor
    · have harith : k + (y :: rest).length * w = (k + w) + rest.length * w := by
        simp only [List.length_cons]
        ring
      rw [harith]
      exact hinvF
    · intro e he
      have houts : machineOutputs (rowProc cv w h pixels) (y :: rest) st
          = (rowProc cv w h pixels y st).1 ::
            machineOutputs (rowProc cv w h pixels) rest
              ((rowProc cv w h pixels y st).2) := rfl
      have hstate : machineState (rowProc cv w h pixels) (y :: rest) st
          = machineState (rowProc cv w h pixels) rest
              ((rowProc cv w h pixels y st).2) := rfl
      rw [houts, hstate]
      rw [List.map_cons, List.sum_cons]
      have h1 := hcountR e he
      have h2 := hcountF e he
      rw [hrowcount e he]
      rw [← hst'] at h1
      omega

/-- C1 (amended): for a conversion run with `tolerance = 0` over a palette of
at least `cellCount` entries with distinct colours and distinct names — when
the palette is small enough (< 1000 entries) that no spatial index is built,
so every cell scans the full palette — no entry whose name does not match an
exempt pattern is assigned to more than one cell of the ResultGrid.  (With
the index active, a cell whose whole candidate neighborhood is already used
falls back to the globally best candidate and can reuse it; see the
counterexample.) -/
theorem tolerance_zero_no_reuse_unindexed
    (es : List Emoji) (o : OptionsIn) (w h : ℕ) (pixels : ℕ → ℕ → Rgb)
    (hsmall : es.length < 1000)
    (htol0 : (mkConverter es o).options.tolerance = 0)
    (hcol : ∀ e ∈ es, e.color.isSome)
    (hnames : (es.map Emoji.name).Nodup)
    (_hcolors : (es.filterMap Emoji.color).Nodup)
    (hcells : w * h ≤ es.length)
    (e : Emoji) (he : e ∈ es) (hexm : isExemptedEmoji e.name = false) :
    ((convertCore (mkConverter es o) w h pixels).1.flatten).count (some e)
      ≤ 1 := by
  set cv := mkConverter es o with hcv
  have hes : cv.emojis = es := rfl
  have hidx : cv.colorIndex = none := by
    rw [hcv]
    simp only [mkConverter, buildColorIndex]
    rw [if_pos hsmall]
  have htol : ¬ 100 ≤ cv.options.tolerance := by
    rw [htol0]
    norm_num
  have hm1 : runMaxUses cv w h = ((1 : ℤ) : WithTop ℤ) := by
    unfold runMaxUses computeMaxEmojiUses
    rw [htol0]
    rw [if_neg (by norm_num)]
    have hz : ((w * h : ℕ) : ℚ) * ((0 : ℚ) / 100) = 0 := by ring
    rw [hz]
    norm_num
  have hinv0 : UsageInv cv.emojis 0 initRunState.used := by
    constructor
    · intro n _
      simp [initRunState]
    · simp [initRunState]
  have hbound : 0 + (List.range h).length * w ≤ cv.emojis.length := by
    rw [List.length_range, hes]
    calc 0 + h * w = w * h := by ring
      _ ≤ es.length := hcells
  obtain ⟨hinvF, hcountF⟩ := grid_usage_inv cv w h pixels hidx htol hm1
    (hes ▸ hnames) (hes ▸ hcol) (List.range h) initRunState 0 hinv0 hbound
  have hflat : ((convertCore cv w h pixels).1.flatten).count (some e)
      = ((machineOutputs (rowProc cv w h pixels) (List.range h)
          initRunState).map (fun row => row.count (some e))).sum := by
    rw [convertCore_eq]
    exact List.count_flatten (some e) _
  rw [hflat]
  have h2 := hcountF e (hes ▸ he)
  have h3 := hinvF.1 e.name hexm
  have h0 : initRunState.used e.name = 0 := rfl
  omega

lemma srgb8ToLinear01_zero : srgb8ToLinear01 (0 : ℝ) = 0 := by
  simp only [srgb8ToLinear01]
  norm_num

lemma srgb8ToLinear01_255 : srgb8ToLinear01 (255 : ℝ) = 1 := by
  simp only [srgb8ToLinear01]
  rw [if_neg (by norm_num)]
  rw [show ((255 : ℝ) / 255 + 0.055) / 1.055 = 1 by norm_num]
  exact Real.one_rpow _

lemma srgb8ToLinear01_nonneg (c : ℝ) (hc : 0 ≤ c) :
    0 ≤ srgb8ToLinear01 c := by
  simp only [srgb8ToLinear01]
  split_ifs with h
  · positivity
  · exact Real.rpow_nonneg (by positivity) _

lemma srgb8ToLinear01_le_one (c : ℝ) (hc0 : 0 ≤ c) (hc : c ≤ 255) :
    srgb8ToLinear01 c ≤ 1 := by
  simp only [srgb8ToLinear01]
  split_ifs with h
  · rw [div_div, div_le_one (by norm_num)]
    linarith
  · have hx1 : (c / 255 + 0.055) / 1.055 ≤ 1 := by
      rw [div_le_one (by norm_num)]
      have : c / 255 ≤ 1 := by linarith
      linarith
    exact Real.rpow_le_one (by positivity) hx1 (by norm_num)

lemma jsCbrt_zero : jsCbrt 0 = 0 := by
  simp only [jsCbrt]
  rw [if_neg (lt_irrefl 0)]
  exact Real.zero_rpow (by norm_num)

lemma jsCbrt_nonneg (x : ℝ) (hx : 0 ≤ x) : 0 ≤ jsCbrt x := by
  simp only [jsCbrt]
  rw [if_neg (not_lt.mpr hx)]
  exact Real.rpow_nonneg hx _

lemma jsCbrt_le_one (x : ℝ) (hx0 : 0 ≤ x) (hx : x ≤ 1) : jsCbrt x ≤ 1 := by
  simp only [jsCbrt]
  rw [if_neg (not_lt.mpr hx0)]
  exact Real.rpow_le_one hx0 hx (by norm_num)

lemma le_jsCbrt (a x : ℝ) (ha : 0 ≤ a) (hx : a ^ (3 : ℕ) ≤ x) :
    a ≤ jsCbrt x := by
  have hx0 : 0 ≤ x := le_trans (by positivity) hx
  simp only [jsCbrt]
  rw [if_neg (not_lt.mpr hx0)]
  have h1 : a = (a ^ (3 : ℕ)) ^ ((1 : ℝ) / 3) := by
    rw [← Real.rpow_natCast a 3, ← Real.rpow_mul ha]
    norm_num
  rw [h1]
  exact Real.rpow_le_rpow (by positivity) hx (by norm_num)

lemma rgb8ToLinear_black : rgb8ToLinear ⟨0, 0, 0⟩ = ⟨0, 0, 0⟩ := by
  simp only [rgb8ToLinear]
  norm_num [srgb8ToLinear01_zero]

lemma linearToOklab_zero : linearToOklab ⟨0, 0, 0⟩ = ⟨0, 0, 0⟩ := by
  simp only [linearToOklab]
  norm_num [jsCbrt_zero]

lemma oklabOf_black : oklabOf ⟨0, 0, 0⟩ = ⟨0, 0, 0⟩ := by
  rw [oklabOf, rgb8ToLinear_black, linearToOklab_zero]

lemma bucketKey_black : bucketKey ⟨0, 0, 0⟩ = ((0 : ℤ), (0 : ℤ), (0 : ℤ)) := by
  rw [bucketKey, oklabOf_black]
  norm_num

lemma bucketKey_bright (r b : ℕ) (hr : r ≤ 255) (hb : b ≤ 255) :
    3 ≤ (bucketKey ⟨r, 255, b⟩).1 := by
  have hrl0 : 0 ≤ srgb8ToLinear01 ((r : ℕ) : ℝ) :=
    srgb8ToLinear01_nonneg _ (by positivity)
  have hrl1 : srgb8ToLinear01 ((r : ℕ) : ℝ) ≤ 1 :=
    srgb8ToLinear01_le_one _ (by positivity) (by exact_mod_cast hr)
  have hbl0 : 0 ≤ srgb8ToLinear01 ((b : ℕ) : ℝ) :=
    srgb8ToLinear01_nonneg _ (by positivity)
  have hbl1 : srgb8ToLinear01 ((b : ℕ) : ℝ) ≤ 1 :=
    srgb8ToLinear01_le_one _ (by positivity) (by exact_mod_cast hb)
  have hg : srgb8ToLinear01 ((255 : ℕ) : ℝ) = 1 := by
    rw [show (((255 : ℕ) : ℝ)) = (255 : ℝ) by norm_num]
    exact srgb8ToLinear01_255
  set lr := srgb8ToLinear01 ((r : ℕ) : ℝ) with hlr
  set lb := srgb8ToLinear01 ((b : ℕ) : ℝ) with hlb
  rw [bucketKey, oklabOf, rgb8ToLinear]
  simp only [linearToOklab, ← hlr, ← hlb, hg]
  set lv : ℝ := 0.4122214708 * lr + 0.5363325363 * 1 + 0.0514459929 * lb
    with hlv
  set mv : ℝ := 0.2119034982 * lr + 0.6806995451 * 1 + 0.1073969566 * lb
    with hmv
  set sv : ℝ := 0.0883024619 * lr + 0.2817188376 * 1 + 0.6299787005 * lb
    with hsv
  have hcl : (0.81 : ℝ) ≤ jsCbrt lv := by
    apply le_jsCbrt _ _ (by norm_num)
    rw [hlv]
    nlinarith
  have hcm : (0.87 : ℝ) ≤ jsCbrt mv := by
    apply le_jsCbrt _ _ (by norm_num)
    rw [hmv]
    nlinarith
  have hcs : jsCbrt sv ≤ 1 := by
    apply jsCbrt_le_one
    · rw [hsv]; nlinarith
    · rw [hsv]; nlinarith
  have hL : (0.15 : ℝ) ≤ 0.2104542553 * jsCbrt lv + 0.7936177850 * jsCbrt mv
      - 0.0040720468 * jsCbrt sv := by
    nlinarith
  exact Int.le_floor.mpr (by
    rw [le_div_iff₀ (by norm_num)]
    push_cast
    linarith)

lemma intRange_nodup (r : ℤ) : (intRange r).Nodup := by
  apply List.Nodup.map
  · intro i j hij
    have hij' : (i : ℤ) - r = (j : ℤ) - r := hij
    omega
  · exact List.nodup_range _

lemma bounds_of_mem_intRange (r z : ℤ) (hz : z ∈ intRange r) (hr : 0 ≤ r) :
    -r ≤ z ∧ z ≤ r := by
  simp only [intRange, List.mem_map, List.mem_range] at hz
  obtain ⟨i, hi, hzi⟩ := hz
  have hcast : ((2 * r.toNat + 1 : ℕ) : ℤ) = 2 * r + 1 := by
    push_cast
    rw [Int.toNat_of_nonneg hr]
  have hiz : ((i : ℕ) : ℤ) < 2 * r + 1 := by
    rw [← hcast]
    exact_mod_cast hi
  omega

lemma zero_mem_intRange (r : ℤ) (hr : 0 ≤ r) : (0 : ℤ) ∈ intRange r :=
  mem_intRange r 0 (by omega) hr

lemma flatMap_all_nil {α β : Type} (l : List α) (f : α → List β)
    (h : ∀ x ∈ l, f x = []) : l.flatMap f = [] := by
  induction l with
  | nil => rfl
  | cons a rest ih =>
    rw [List.flatMap_cons, h a (List.mem_cons_self a rest),
      ih (fun x hx => h x (List.mem_cons_of_mem a hx))]
    rfl

lemma flatMap_single {α β : Type} [DecidableEq α] (l : List α) (z : α)
    (f : α → List β) (hnd : l.Nodup) (hz : z ∈ l)
    (h0 : ∀ x ∈ l, x ≠ z → f x = []) : l.flatMap f = f z := by
  induction l with
  | nil => cases hz
  | cons a rest ih =>
    rw [List.flatMap_cons]
    by_cases haz : a = z
    · subst haz
      have hrest : rest.flatMap f = [] := by
        apply flatMap_all_nil
        intro x hx
        apply h0 x (List.mem_cons_of_mem a hx)
        intro hxa
        subst hxa
        exact (List.nodup_cons.mp hnd).1 hx
      rw [hrest, List.append_nil]
    · have ha0 : f a = [] := h0 a (List.mem_cons_self a rest) haz
      rw [ha0, List.nil_append]
      have hz' : z ∈ rest := by
        rcases List.mem_cons.mp hz with h | h
        · exact absurd h.symm haz
        · exact h
      exact ih (List.nodup_cons.mp hnd).2 hz'
        (fun x hx => h0 x (List.mem_cons_of_mem a hx))

lemma foldl_pushEmoji_away (es : List Emoji) (m0 : BucketMap)
    (k : ℤ × ℤ × ℤ)
    (h : ∀ e ∈ es, e.accentColor = none ∧ e.colorProfile = [] ∧
        ∀ c, e.color = some c → bucketKey c ≠ k) :
    (es.foldl pushEmoji m0) k = m0 k := by
  induction es generalizing m0 with
  | nil => rfl
  | cons e rest ih =>
    rw [List.foldl_cons]
    rw [ih (pushEmoji m0 e) (fun x hx => h x (List.mem_cons_of_mem e hx))]
    obtain ⟨hacc, hprof, hcol⟩ := h e (List.mem_cons_self e rest)
    cases hc : e.color with
    | none => simp only [pushEmoji, hc]
    | some c =>
      simp only [pushEmoji, hc, hacc, hprof, List.foldl_nil]
      simp only [pushToBucket]
      rw [if_neg (fun hk => hcol c hc hk.symm)]

lemma cexMap_eval (k : ℤ × ℤ × ℤ) (hk : k.1 ≤ 2) :
    cexMap k = if k = ((0 : ℤ), (0 : ℤ), (0 : ℤ)) then [dotEmoji] else [] := by
  have hdot : (pushEmoji (fun _ => []) dotEmoji) k
      = if k = ((0 : ℤ), (0 : ℤ), (0 : ℤ)) then [dotEmoji] else [] := by
    simp only [pushEmoji, dotEmoji, List.foldl_nil]
    simp only [pushToBucket, bucketKey_black]
    by_cases h : k = ((0 : ℤ), (0 : ℤ), (0 : ℤ))
    · simp only [if_pos h]
      rw [if_neg (by simp)]
      rfl
    · simp only [if_neg h]
  rw [cexMap, cexPalette, List.foldl_cons]
  rw [foldl_pushEmoji_away]
  · exact hdot
  · intro e he
    simp only [List.mem_map, List.mem_range] at he
    obtain ⟨i, hi, hei⟩ := he
    subst hei
    refine ⟨rfl, rfl, ?_⟩
    intro c hc
    have hcc : c = fillerColor i := by
      simpa [fillerEmoji] using hc.symm
    subst hcc
    intro hbk
    have h3 : 3 ≤ (bucketKey (fillerColor i)).1 := by
      apply bucketKey_bright
      · omega
      · omega
    rw [hbk] at h3
    omega

lemma collectBuckets_cexMap (r : ℤ) (hr0 : 0 ≤ r) (hr2 : r ≤ 2) :
    collectBuckets cexMap ((0 : ℤ), (0 : ℤ), (0 : ℤ)) r = [dotEmoji] := by
  simp only [collectBuckets]
  rw [flatMap_single (intRange r) 0 _ (intRange_nodup r)
    (zero_mem_intRange r hr0)]
  · rw [flatMap_single (intRange r) 0 _ (intRange_nodup r)
      (zero_mem_intRange r hr0)]
    · rw [flatMap_single (intRange r) 0 _ (intRange_nodup r)
        (zero_mem_intRange r hr0)]
      · rw [cexMap_eval ((0 : ℤ) + 0, (0 : ℤ) + 0, (0 : ℤ) + 0) (by norm_num)]
        norm_num
      · intro db hdb hdbne
        rw [cexMap_eval _ (by
          have := bounds_of_mem_intRange r 0 (zero_mem_intRange r hr0) hr0
          omega)]
        rw [if_neg (by
          intro hkey
          apply hdbne
          have := congrArg (fun p => p.2.2) hkey
          simpa using this)]
    · intro da hda hdane
      apply flatMap_all_nil
      intro db hdb
      have hb := bounds_of_mem_intRange r db hdb hr0
      rw [cexMap_eval _ (by omega)]
      rw [if_neg (by
        intro hkey
        apply hdane
        have := congrArg (fun p => p.2.1) hkey
        simpa using this)]
  · intro dL hdL hdLne
    apply flatMap_all_nil
    intro da hda
    apply flatMap_all_nil
    intro db hdb
    have hb := bounds_of_mem_intRange r dL hdL hr0
    rw [cexMap_eval _ (by simpa using hb.2.trans hr2)]
    rw [if_neg (by
      intro hkey
      apply hdLne
      have := congrArg (fun p => p.1) hkey
      simpa using this)]

lemma cexPalette_length : cexPalette.length = 1000 := by
  simp [cexPalette]

lemma cexCv_colorIndex : cexCv.colorIndex = some cexMap := by
  simp only [cexCv, mkConverter]
  rw [buildColorIndex, if_neg (by rw [cexPalette_length]; norm_num)]
  rw [cexMap]

lemma cex_candidates :
    getCandidateEmojis cexCv ⟨0, 0, 0⟩ = [dotEmoji, dotEmoji] := by
  simp only [getCandidateEmojis, cexCv_colorIndex]
  rw [bucketKey_black]
  rw [collectBuckets_cexMap 1 (by norm_num) (by norm_num)]
  rw [if_pos (by simp)]
  rw [collectBuckets_cexMap 2 (by norm_num) (by norm_num)]
  rw [if_pos (by simp)]
  rfl

lemma cex_tolerance : cexCv.options.tolerance = 0 := rfl

lemma cex_not_tol100 : ¬ 100 ≤ cexCv.options.tolerance := by
  rw [cex_tolerance]
  norm_num

lemma cex_maxUses : runMaxUses cexCv 1 2 = ((1 : ℤ) : WithTop ℤ) := by
  rw [runMaxUses, computeMaxEmojiUses, cex_tolerance]
  rw [if_neg (by norm_num)]
  have hz : ((1 * 2 : ℕ) : ℚ) * ((0 : ℚ) / 100) = 0 := by norm_num
  rw [hz, Int.floor_zero]
  rfl

lemma matchStep_first_allowed (cv : Converter) (mu : WithTop ℤ)
    (used : Usage) (lab : Lab) (bias : ℚ) (e : Emoji) (c : Rgb)
    (hc : e.color = some c) (htol : ¬ 100 ≤ cv.options.tolerance)
    (hA : AllowedEntry mu used e) :
    matchStep cv mu used lab bias ⟨none, none⟩ e
      = ⟨some (e, candidateScore cv.options lab bias e c),
         some (e, candidateScore cv.options lab bias e c)⟩ := by
  simp only [matchStep, hc]
  rw [if_pos (show distBeats _ none from trivial)]
  rw [if_neg htol]
  rw [if_pos ⟨hA, trivial⟩]

lemma matchStep_first_blocked (cv : Converter) (mu : WithTop ℤ)
    (used : Usage) (lab : Lab) (bias : ℚ) (e : Emoji) (c : Rgb)
    (hc : e.color = some c) (htol : ¬ 100 ≤ cv.options.tolerance)
    (hA : ¬ AllowedEntry mu used e) :
    matchStep cv mu used lab bias ⟨none, none⟩ e
      = ⟨some (e, candidateScore cv.options lab bias e c), none⟩ := by
  simp only [matchStep, hc]
  rw [if_pos (show distBeats _ none from trivial)]
  rw [if_neg htol]
  rw [if_neg (fun h => hA h.1)]

lemma matchStep_repeat (cv : Converter) (mu : WithTop ℤ) (used : Usage)
    (lab : Lab) (bias : ℚ) (e : Emoji) (c : Rgb)
    (hc : e.color = some c) (htol : ¬ 100 ≤ cv.options.tolerance)
    (ba : Option (Emoji × ℝ))
    (hba : ¬ (AllowedEntry mu used e ∧
        distBeats (candidateScore cv.options lab bias e c) ba)) :
    matchStep cv mu used lab bias
        ⟨some (e, candidateScore cv.options lab bias e c), ba⟩ e
      = ⟨some (e, candidateScore cv.options lab bias e c), ba⟩ := by
  simp only [matchStep, hc]
  rw [if_neg (show ¬ distBeats _ (some (e, candidateScore cv.options lab bias e c))
    from lt_irrefl _)]
  rw [if_neg htol]
  rw [if_neg hba]

lemma cex_findBest (used : Usage) :
    findBestEmoji cexCv ((1 : ℤ) : WithTop ℤ) used ⟨0, 0, 0⟩
      = (some dotEmoji,
         fun n => if n = dotEmoji.name then used n + 1 else used n) := by
  have hdc : dotEmoji.color = some ⟨0, 0, 0⟩ := rfl
  unfold findBestEmoji
  rw [cex_candidates]
  dsimp only
  rw [List.foldl_cons, List.foldl_cons, List.foldl_nil]
  by_cases hA : AllowedEntry ((1 : ℤ) : WithTop ℤ) used dotEmoji
  · rw [matchStep_first_allowed cexCv _ used _ _ dotEmoji _ hdc cex_not_tol100 hA]
    rw [matchStep_repeat cexCv _ used _ _ dotEmoji _ hdc cex_not_tol100 _
      (fun h => lt_irrefl _ h.2)]
    rw [if_neg cex_not_tol100]
  · rw [matchStep_first_blocked cexCv _ used _ _ dotEmoji _ hdc cex_not_tol100 hA]
    rw [matchStep_repeat cexCv _ used _ _ dotEmoji _ hdc cex_not_tol100 _
      (fun h => hA h.1)]
    rw [if_neg cex_not_tol100]
    rfl

lemma cex_cellProc (y x : ℕ) (st : RunState) :
    cellProc cexCv 1 2 cexPixels y x st
      = (some dotEmoji,
         { used := fun n => if n = dotEmoji.name then st.used n + 1 else st.used n
           err := st.err }) := by
  have hdith : cexCv.options.dithering = false := rfl
  unfold cellProc
  rw [cex_maxUses, hdith]
  unfold processCell
  dsimp only [cexPixels]
  rw [if_neg Bool.false_ne_true]
  rw [cex_findBest st.used]

lemma cex_rowProc (y : ℕ) (st : RunState) :
    rowProc cexCv 1 2 cexPixels y st
      = ([some dotEmoji],
         { used := fun n => if n = dotEmoji.name then st.used n + 1 else st.used n
           err := st.err }) := by
  have hserp : rowSerp cexCv y = false := rfl
  unfold rowProc
  rw [hserp]
  rw [show rowOrder false 1 = [0] from rfl]
  rw [List.foldl_cons, List.foldl_nil]
  dsimp only
  rw [cex_cellProc y 0 st]
  rw [if_neg Bool.false_ne_true]
  rfl

lemma cex_convert :
    (convertCore cexCv 1 2 cexPixels).1
      = [[some dotEmoji], [some dotEmoji]] := by
  unfold convertCore
  rw [show List.range 2 = [0, 1] from rfl]
  rw [List.foldl_cons, List.foldl_cons, List.foldl_nil]
  dsimp only
  rw [cex_rowProc 0 initRunState]
  dsimp only
  rw [cex_rowProc 1 _]
  rfl

lemma fillerName_inj : Function.Injective fillerName := by
  intro i j h
  simp only [fillerName] at h
  injection h with h'
  have hlen := congrArg List.length h'
  simp only [List.length_replicate] at hlen
  omega

lemma dot_ne_fillerName (i : ℕ) : "dot" ≠ fillerName i := by
  intro h
  have hd : "dot".data = List.replicate (i + 1) 'f' := congrArg String.data h
  have hmem : 'd' ∈ "dot".data := by decide
  rw [hd] at hmem
  have := List.eq_of_mem_replicate hmem
  exact absurd this (by decide)

lemma cex_names_nodup : (cexPalette.map Emoji.name).Nodup := by
  simp only [cexPalette, List.map_cons, List.map_map]
  rw [List.nodup_cons]
  constructor
  · intro hmem
    simp only [List.mem_map, Function.comp, List.mem_range] at hmem
    obtain ⟨i, _, hi⟩ := hmem
    exact dot_ne_fillerName i (by simpa [fillerEmoji, dotEmoji] using hi.symm)
  · apply List.Nodup.map ?_ (List.nodup_range _)
    intro i j hij
    apply fillerName_inj
    simpa [fillerEmoji, Function.comp] using hij

lemma fillerColor_inj : Function.Injective fillerColor := by
  intro i j h
  simp only [fillerColor, Rgb.mk.injEq] at h
  omega

lemma filterMap_some_eq_map {α β : Type} (f : α → β) (l : List α) :
    l.filterMap (fun a => some (f a)) = l.map f := by
  induction l with
  | nil => rfl
  | cons a rest ih => simp [List.filterMap_cons, ih]

lemma cex_colors_nodup : (cexPalette.filterMap Emoji.color).Nodup := by
  simp only [cexPalette, List.filterMap_cons]
  rw [show dotEmoji.color = some ⟨0, 0, 0⟩ from rfl]
  rw [List.filterMap_map]
  rw [show (Emoji.color ∘ fillerEmoji) = fun i => some (fillerColor i) from rfl]
  rw [filterMap_some_eq_map]
  rw [List.nodup_cons]
  constructor
  · intro hmem
    simp only [List.mem_map, List.mem_range] at hmem
    obtain ⟨i, _, hi⟩ := hmem
    have := congrArg Rgb.g hi
    simp [fillerColor] at this
  · exact List.Nodup.map fillerColor_inj (List.nodup_range _)

lemma cex_colors_present : ∀ e ∈ cexPalette, e.color.isSome := by
  intro e he
  rcases List.mem_cons.mp he with h | h
  · subst h
    rfl
  · simp only [List.mem_map, List.mem_range] at h
    obtain ⟨i, _, hi⟩ := h
    subst hi
    rfl

/-- C1 counterexample: with the spatial index active (palette of 1000
entries) the claimed `tolerance = 0` uniqueness fails.  The palette has
distinct names and distinct colours, every entry has a colour, there are at
least as many entries as cells (2 cells, 1000 entries), the non-exempt entry
`dot` is in the palette — yet the 1×2 all-black conversion assigns `dot` to
both cells: the second cell's candidate neighborhood contains only the
already-used `dot`, and `findBestEmoji` falls back from the empty
`bestAllowed` to the overall best, bypassing the cap. -/
theorem tolerance_zero_reuse_with_index_counterexample :
    (mkConverter cexPalette cexOptions).options.tolerance = 0 ∧
    (∀ e ∈ cexPalette, e.color.isSome) ∧
    (cexPalette.map Emoji.name).Nodup ∧
    (cexPalette.filterMap Emoji.color).Nodup ∧
    1 * 2 ≤ cexPalette.length ∧
    dotEmoji ∈ cexPalette ∧
    isExemptedEmoji dotEmoji.name = false ∧
    1 < ((convertCore (mkConverter cexPalette cexOptions) 1 2
        cexPixels).1.flatten).count (some dotEmoji) := by
  refine ⟨rfl, cex_colors_present, cex_names_nodup, cex_colors_nodup,
    ?_, List.mem_cons_self _ _, by decide, ?_⟩
  · rw [cexPalette_length]
    norm_num
  · rw [show convertCore (mkConverter cexPalette cexOptions) 1 2 cexPixels
      = convertCore cexCv 1 2 cexPixels from rfl]
    rw [cex_convert]
    simp [List.count_cons]

/-- Witness for the amended C1 theorem at a one-entry palette on a 1×1
image. -/
theorem tolerance_zero_no_reuse_unindexed_witness :
    ([dotEmoji].length < 1000 ∧
     (mkConverter [dotEmoji] cexOptions).options.tolerance = 0 ∧
     (∀ e ∈ [dotEmoji], e.color.isSome) ∧
     (([dotEmoji].map Emoji.name).Nodup) ∧
     (([dotEmoji].filterMap Emoji.color).Nodup) ∧
     1 * 1 ≤ ([dotEmoji] : List Emoji).length ∧
     dotEmoji ∈ [dotEmoji] ∧
     isExemptedEmoji dotEmoji.name = false) ∧
    ((convertCore (mkConverter [dotEmoji] cexOptions) 1 1
        cexPixels).1.flatten).count (some dotEmoji) ≤ 1 :=
  ⟨⟨by decide, by decide, by decide, by decide, by decide, by decide,
    by decide, by decide⟩,
   tolerance_zero_no_reuse_unindexed [dotEmoji] cexOptions 1 1 cexPixels
     (by decide) (by decide) (by decide) (by decide) (by decide) (by decide)
     dotEmoji (by decide) (by decide)⟩

lemma chebyshevKeyDist_self (k : ℤ × ℤ × ℤ) : chebyshevKeyDist k k = 0 := by
  simp [chebyshevKeyDist]

/-- Witness for C3: the black entry of the 1000-entry palette is returned by
the index lookup for a black query (its key is at Chebyshev distance 0). -/
theorem index_candidates_complete_witness :
    (1000 ≤ cexPalette.length ∧ dotEmoji ∈ cexPalette ∧
     dotEmoji.color = some ⟨0, 0, 0⟩ ∧
     chebyshevKeyDist (bucketKey ⟨0, 0, 0⟩) (bucketKey ⟨0, 0, 0⟩)
        ≤ finalSearchRadius (mkConverter cexPalette cexOptions) ⟨0, 0, 0⟩) ∧
    dotEmoji ∈ getCandidateEmojis (mkConverter cexPalette cexOptions)
      ⟨0, 0, 0⟩ :=
  ⟨⟨le_of_eq cexPalette_length.symm, List.mem_cons_self _ _, rfl,
    by rw [chebyshevKeyDist_self]; exact finalSearchRadius_nonneg _ _⟩,
   index_candidates_complete cexPalette cexOptions ⟨0, 0, 0⟩ dotEmoji ⟨0, 0, 0⟩
     (le_of_eq cexPalette_length.symm) (List.mem_cons_self _ _) rfl
     (by rw [chebyshevKeyDist_self]; exact finalSearchRadius_nonneg _ _)⟩

end PixelArt

end
